import Mathlib

/-!
A shallow embedding of `src/flight_parser.py` together with proofs about it.

The embedding covers the record validator (`validate_row`), the file scanner
(`parse_csv_file`), and the query matcher (`match_query`).

Modelling choices:
* Python strings are Lean `String`s; functions that walk a string are defined
  on the underlying `List Char`.
* Python `float` values are modelled as rationals (`ℚ`).  Executable code
  builds rationals only through `mkRat` and integer arithmetic so that every
  definition evaluates inside the kernel.  The special float literals
  (`inf`, `nan`) and underscore digit separators accepted by Python's
  `float()` are not modelled.
* `datetime.strptime(s, "%Y-%m-%d %H:%M")` is modelled by a character-level
  parser that follows the regular expressions used by CPython's `_strptime`
  (`%Y` is exactly four digits, `%m`/`%d`/`%H`/`%M` admit one- or two-digit
  forms, a literal space matches a nonempty run of whitespace), followed by
  the `datetime` constructor's day-of-month and year validation.
  `dt.strftime("%Y-%m-%d %H:%M")` is the zero-padded rendering documented
  for these directives.
-/

namespace FlightParser

/-- Whitespace characters recognised by Python's `str.strip` (ASCII range:
space, `\t`, `\n`, `\v`, `\f`, `\r`, and the file/group/record/unit
separators `\x1c`-`\x1f`). -/
def pySpace (c : Char) : Bool :=
  c.toNat = 32 || (9 ≤ c.toNat && c.toNat ≤ 13) || (28 ≤ c.toNat && c.toNat ≤ 31)

/-- Strip `pySpace` characters from both ends of a character list. -/
def stripL (l : List Char) : List Char :=
  ((l.dropWhile pySpace).reverse.dropWhile pySpace).reverse

/-- Python `s.strip()`. -/
def pyStrip (s : String) : String := ⟨stripL s.data⟩

/-- Python `s.lstrip()`. -/
def pyLstrip (s : String) : String := ⟨s.data.dropWhile pySpace⟩

/-- Python `raw.rstrip("\n")`: drop every trailing newline character. -/
def pyRstripNl (s : String) : String :=
  ⟨(s.data.reverse.dropWhile (· = '\n')).reverse⟩

/-- ASCII decimal digit. -/
def isDigitCh (c : Char) : Bool := 48 ≤ c.toNat && c.toNat ≤ 57

/-- Numeric value of an ASCII digit character. -/
def digitVal (c : Char) : Nat := c.toNat - 48

/-- The ASCII digit character of `n % 10`. -/
def digitCh (n : Nat) : Char := Char.ofNat (48 + n % 10)

/-- Two-digit zero-padded decimal rendering (for `n ≤ 99`). -/
def pad2 (n : Nat) : List Char := [digitCh (n / 10), digitCh n]

/-- Four-digit zero-padded decimal rendering (for `n ≤ 9999`). -/
def pad4 (n : Nat) : List Char :=
  [digitCh (n / 1000), digitCh (n / 100), digitCh (n / 10), digitCh n]

/-- A timestamp at minute granularity, as produced by
`datetime.strptime(s, "%Y-%m-%d %H:%M")`. -/
structure DateTime where
  year : Nat
  month : Nat
  day : Nat
  hour : Nat
  minute : Nat
  deriving DecidableEq, Repr

/-- Python `datetime` order: lexicographic on the components. -/
def dtLe (a b : DateTime) : Bool :=
  if a.year ≠ b.year then decide (a.year < b.year)
  else if a.month ≠ b.month then decide (a.month < b.month)
  else if a.day ≠ b.day then decide (a.day < b.day)
  else if a.hour ≠ b.hour then decide (a.hour < b.hour)
  else decide (a.minute ≤ b.minute)

/-- Python `datetime` strict order: lexicographic on the components. -/
def dtLt (a b : DateTime) : Bool :=
  if a.year ≠ b.year then decide (a.year < b.year)
  else if a.month ≠ b.month then decide (a.month < b.month)
  else if a.day ≠ b.day then decide (a.day < b.day)
  else if a.hour ≠ b.hour then decide (a.hour < b.hour)
  else decide (a.minute < b.minute)

/-- Gregorian leap-year rule used by `datetime`. -/
def isLeap (y : Nat) : Bool := (y % 4 = 0 && y % 100 ≠ 0) || y % 400 = 0

/-- Number of days of month `m` in year `y`. -/
def daysInMonth (y m : Nat) : Nat :=
  if m = 2 then (if isLeap y then 29 else 28)
  else if m = 4 ∨ m = 6 ∨ m = 9 ∨ m = 11 then 30
  else 31

/-- `%Y`: exactly four digits. -/
def parseYear4 : List Char → Option (Nat × List Char)
  | a :: b :: c :: d :: rest =>
    if isDigitCh a ∧ isDigitCh b ∧ isDigitCh c ∧ isDigitCh d then
      some (digitVal a * 1000 + digitVal b * 100 + digitVal c * 10 + digitVal d, rest)
    else none
  | _ => none

/-- A literal character of the format string. -/
def parseLit (c : Char) : List Char → Option (List Char)
  | x :: rest => if x = c then some rest else none
  | [] => none

/-- A literal space of the format string matches a nonempty whitespace run. -/
def parseWs : List Char → Option (List Char)
  | x :: rest => if pySpace x then some (rest.dropWhile pySpace) else none
  | [] => none

/-- `%m`, following the alternatives `1[0-2]|0[1-9]|[1-9]`. -/
def parseMonth : List Char → Option (Nat × List Char)
  | c1 :: c2 :: rest =>
    if c1.toNat = 49 ∧ 48 ≤ c2.toNat ∧ c2.toNat ≤ 50 then some (10 + digitVal c2, rest)
    else if c1.toNat = 48 ∧ 49 ≤ c2.toNat ∧ c2.toNat ≤ 57 then some (digitVal c2, rest)
    else if 49 ≤ c1.toNat ∧ c1.toNat ≤ 57 then some (digitVal c1, c2 :: rest)
    else none
  | [c1] => if 49 ≤ c1.toNat ∧ c1.toNat ≤ 57 then some (digitVal c1, []) else none
  | [] => none

/-- `%d`, following the alternatives `3[01]|[12][0-9]|0[1-9]|[1-9]| [1-9]`. -/
def parseDay : List Char → Option (Nat × List Char)
  | c1 :: c2 :: rest =>
    if c1.toNat = 51 ∧ (c2.toNat = 48 ∨ c2.toNat = 49) then some (30 + digitVal c2, rest)
    else if (c1.toNat = 49 ∨ c1.toNat = 50) ∧ isDigitCh c2 then
      some (digitVal c1 * 10 + digitVal c2, rest)
    else if c1.toNat = 48 ∧ 49 ≤ c2.toNat ∧ c2.toNat ≤ 57 then some (digitVal c2, rest)
    else if 49 ≤ c1.toNat ∧ c1.toNat ≤ 57 then some (digitVal c1, c2 :: rest)
    else if c1.toNat = 32 ∧ 49 ≤ c2.toNat ∧ c2.toNat ≤ 57 then some (digitVal c2, rest)
    else none
  | [c1] => if 49 ≤ c1.toNat ∧ c1.toNat ≤ 57 then some (digitVal c1, []) else none
  | [] => none

/-- `%H`, following the alternatives `2[0-3]|[0-1][0-9]|[0-9]`. -/
def parseHour : List Char → Option (Nat × List Char)
  | c1 :: c2 :: rest =>
    if c1.toNat = 50 ∧ 48 ≤ c2.toNat ∧ c2.toNat ≤ 51 then some (20 + digitVal c2, rest)
    else if (c1.toNat = 48 ∨ c1.toNat = 49) ∧ isDigitCh c2 then
      some (digitVal c1 * 10 + digitVal c2, rest)
    else if isDigitCh c1 then some (digitVal c1, c2 :: rest)
    else none
  | [c1] => if isDigitCh c1 then some (digitVal c1, []) else none
  | [] => none

/-- `%M`, following the alternatives `[0-5][0-9]|[0-9]`. -/
def parseMinute : List Char → Option (Nat × List Char)
  | c1 :: c2 :: rest =>
    if (48 ≤ c1.toNat ∧ c1.toNat ≤ 53) ∧ isDigitCh c2 then
      some (digitVal c1 * 10 + digitVal c2, rest)
    else if isDigitCh c1 then some (digitVal c1, c2 :: rest)
    else none
  | [c1] => if isDigitCh c1 then some (digitVal c1, []) else none
  | [] => none

/-- `strptime` on the char list: the five fields joined by the literal
separators, a full match, then the `datetime` constructor's checks
(`year ≥ 1`; the day must exist in the month — `%Y` already bounds the year
by 9999 and the field regexes bound the other components). -/
def parseDTL (l : List Char) : Option DateTime :=
  match parseYear4 l with
  | none => none
  | some (y, l1) =>
  match parseLit '-' l1 with
  | none => none
  | some l2 =>
  match parseMonth l2 with
  | none => none
  | some (m, l3) =>
  match parseLit '-' l3 with
  | none => none
  | some l4 =>
  match parseDay l4 with
  | none => none
  | some (d, l5) =>
  match parseWs l5 with
  | none => none
  | some l6 =>
  match parseHour l6 with
  | none => none
  | some (h, l7) =>
  match parseLit ':' l7 with
  | none => none
  | some l8 =>
  match parseMinute l8 with
  | none => none
  | some (mi, l9) =>
  if l9 = [] ∧ 1 ≤ y ∧ d ≤ daysInMonth y m then some ⟨y, m, d, h, mi⟩ else none

/-- `parse_datetime` from the source: `strptime` wrapped in `try/except`,
returning `none` on any failure. -/
def parse_datetime (s : String) : Option DateTime := parseDTL s.data

/-- The canonical rendering list: `dt.strftime("%Y-%m-%d %H:%M")`. -/
def renderDTL (dt : DateTime) : List Char :=
  pad4 dt.year ++ ('-' :: (pad2 dt.month ++ ('-' :: (pad2 dt.day ++
    (' ' :: (pad2 dt.hour ++ (':' :: pad2 dt.minute)))))))

/-- `dt.strftime("%Y-%m-%d %H:%M")`. -/
def renderDT (dt : DateTime) : String := ⟨renderDTL dt⟩

/-- The component ranges guaranteed for every parsed timestamp. -/
def validDT (dt : DateTime) : Prop :=
  1 ≤ dt.year ∧ dt.year ≤ 9999 ∧ 1 ≤ dt.month ∧ dt.month ≤ 12 ∧
    1 ≤ dt.day ∧ dt.day ≤ daysInMonth dt.year dt.month ∧ dt.hour ≤ 23 ∧ dt.minute ≤ 59

instance (dt : DateTime) : Decidable (validDT dt) := by
  unfold validDT; infer_instance


lemma digitCh_toNat (n : Nat) : (digitCh n).toNat = 48 + n % 10 := by
  have h : n % 10 < 10 := Nat.mod_lt _ (by omega)
  unfold digitCh
  set k := n % 10 with hk
  interval_cases k <;> decide

lemma isDigitCh_digitCh (n : Nat) : isDigitCh (digitCh n) = true := by
  simp only [isDigitCh, digitCh_toNat, Bool.and_eq_true, decide_eq_true_eq]
  omega

lemma digitVal_digitCh (n : Nat) : digitVal (digitCh n) = n % 10 := by
  simp [digitVal, digitCh_toNat]

lemma pySpace_digitCh (n : Nat) : pySpace (digitCh n) = false := by
  simp only [pySpace, digitCh_toNat, Bool.or_eq_false_iff, decide_eq_false_iff_not,
    Bool.and_eq_false_iff]
  omega

lemma daysInMonth_le31 (y m : Nat) : daysInMonth y m ≤ 31 := by
  unfold daysInMonth
  split_ifs <;> omega

lemma parseYear4_pad (y : Nat) (hy : y ≤ 9999) (rest : List Char) :
    parseYear4 (pad4 y ++ rest) = some (y, rest) := by
  simp only [pad4, List.cons_append, List.nil_append, parseYear4, isDigitCh_digitCh,
    digitVal_digitCh, eq_self_iff_true, and_self, if_true, Option.some.injEq,
    Prod.mk.injEq, and_true]
  omega

lemma parseLit_cons (c : Char) (rest : List Char) : parseLit c (c :: rest) = some rest := by
  simp [parseLit]

lemma parseMonth_pad (m : Nat) (h1 : 1 ≤ m) (h2 : m ≤ 12) (rest : List Char) :
    parseMonth (pad2 m ++ rest) = some (m, rest) := by
  simp only [pad2, List.cons_append, List.nil_append, parseMonth, isDigitCh_digitCh,
    digitCh_toNat, digitVal_digitCh, eq_self_iff_true, and_true, true_and]
  split_ifs <;>
    first
      | (simp only [Option.some.injEq, Prod.mk.injEq, eq_self_iff_true, and_true]; omega)
      | (exfalso; omega)

lemma parseDay_pad (d : Nat) (h1 : 1 ≤ d) (h2 : d ≤ 31) (rest : List Char) :
    parseDay (pad2 d ++ rest) = some (d, rest) := by
  simp only [pad2, List.cons_append, List.nil_append, parseDay, isDigitCh_digitCh,
    digitCh_toNat, digitVal_digitCh, eq_self_iff_true, and_true, true_and]
  split_ifs <;>
    first
      | (simp only [Option.some.injEq, Prod.mk.injEq, eq_self_iff_true, and_true]; omega)
      | (exfalso; omega)

lemma parseHour_pad (h : Nat) (h2 : h ≤ 23) (rest : List Char) :
    parseHour (pad2 h ++ rest) = some (h, rest) := by
  simp only [pad2, List.cons_append, List.nil_append, parseHour, isDigitCh_digitCh,
    digitCh_toNat, digitVal_digitCh, eq_self_iff_true, and_true, true_and]
  split_ifs <;>
    first
      | (simp only [Option.some.injEq, Prod.mk.injEq, eq_self_iff_true, and_true]; omega)
      | (exfalso; omega)

lemma parseMinute_pad (mi : Nat) (h2 : mi ≤ 59) (rest : List Char) :
    parseMinute (pad2 mi ++ rest) = some (mi, rest) := by
  simp only [pad2, List.cons_append, List.nil_append, parseMinute, isDigitCh_digitCh,
    digitCh_toNat, digitVal_digitCh, eq_self_iff_true, and_true, true_and]
  split_ifs <;>
    first
      | (simp only [Option.some.injEq, Prod.mk.injEq, eq_self_iff_true, and_true]; omega)
      | (exfalso; omega)

lemma parseMinute_pad_nil (mi : Nat) (h2 : mi ≤ 59) :
    parseMinute (pad2 mi) = some (mi, []) := by
  have := parseMinute_pad mi h2 []
  simpa using this

lemma dropWhile_pad2_append (n : Nat) (rest : List Char) :
    (pad2 n ++ rest).dropWhile pySpace = pad2 n ++ rest := by
  simp [pad2, List.dropWhile_cons, pySpace_digitCh]

theorem parseDTL_renderDTL (dt : DateTime) (h : validDT dt) :
    parseDTL (renderDTL dt) = some dt := by
  obtain ⟨h1, h2, h3, h4, h5, h6, h7, h8⟩ := h
  have hd31 : dt.day ≤ 31 := le_trans h6 (daysInMonth_le31 _ _)
  have hsp : pySpace ' ' = true := by decide
  have hws : parseWs (' ' :: (pad2 dt.hour ++ (':' :: pad2 dt.minute)))
      = some (pad2 dt.hour ++ (':' :: pad2 dt.minute)) := by
    simp [parseWs, hsp, dropWhile_pad2_append]
  simp only [parseDTL, renderDTL, parseYear4_pad _ h2, parseLit_cons,
    parseMonth_pad _ h3 h4, parseDay_pad _ h5 hd31, hws,
    parseHour_pad _ h7, parseMinute_pad_nil _ h8, h1, h6, eq_self_iff_true,
    and_self, and_true, true_and, if_true]

lemma parseYear4_bound {l : List Char} {y : Nat} {r : List Char}
    (h : parseYear4 l = some (y, r)) : y ≤ 9999 := by
  unfold parseYear4 at h
  split at h
  · split_ifs at h with hc
    simp only [Option.some.injEq, Prod.mk.injEq, digitVal] at h
    simp only [isDigitCh, Bool.and_eq_true, decide_eq_true_eq] at hc
    omega
  · simp at h

lemma parseMonth_bound {l : List Char} {m : Nat} {r : List Char}
    (h : parseMonth l = some (m, r)) : 1 ≤ m ∧ m ≤ 12 := by
  unfold parseMonth at h
  split at h <;>
    first
      | (simp at h; done)
      | (split_ifs at h <;>
          first
            | (simp at h; done)
            | (simp only [Option.some.injEq, Prod.mk.injEq, digitVal] at h
               simp only [isDigitCh, Bool.and_eq_true, decide_eq_true_eq] at *
               obtain ⟨hv, -⟩ := h
               omega))

lemma parseDay_bound {l : List Char} {d : Nat} {r : List Char}
    (h : parseDay l = some (d, r)) : 1 ≤ d ∧ d ≤ 31 := by
  unfold parseDay at h
  split at h <;>
    first
      | (simp at h; done)
      | (split_ifs at h <;>
          first
            | (simp at h; done)
            | (simp only [Option.some.injEq, Prod.mk.injEq, digitVal] at h
               simp only [isDigitCh, Bool.and_eq_true, decide_eq_true_eq] at *
               obtain ⟨hv, -⟩ := h
               omega))

lemma parseHour_bound {l : List Char} {hr : Nat} {r : List Char}
    (h : parseHour l = some (hr, r)) : hr ≤ 23 := by
  unfold parseHour at h
  split at h <;>
    first
      | (simp at h; done)
      | (split_ifs at h <;>
          first
            | (simp at h; done)
            | (simp only [Option.some.injEq, Prod.mk.injEq, digitVal] at h
               simp only [isDigitCh, Bool.and_eq_true, decide_eq_true_eq] at *
               obtain ⟨hv, -⟩ := h
               omega))

lemma parseMinute_bound {l : List Char} {mi : Nat} {r : List Char}
    (h : parseMinute l = some (mi, r)) : mi ≤ 59 := by
  unfold parseMinute at h
  split at h <;>
    first
      | (simp at h; done)
      | (split_ifs at h <;>
          first
            | (simp at h; done)
            | (simp only [Option.some.injEq, Prod.mk.injEq, digitVal] at h
               simp only [isDigitCh, Bool.and_eq_true, decide_eq_true_eq] at *
               obtain ⟨hv, -⟩ := h
               omega))

theorem parseDTL_valid {l : List Char} {dt : DateTime} (h : parseDTL l = some dt) :
    validDT dt := by
  unfold parseDTL at h
  split at h
  · simp at h
  rename_i y l1 hy
  split at h
  · simp at h
  split at h
  · simp at h
  rename_i m l3 hm
  split at h
  · simp at h
  split at h
  · simp at h
  rename_i d l5 hd
  split at h
  · simp at h
  split at h
  · simp at h
  rename_i hr l7 hh
  split at h
  · simp at h
  split at h
  · simp at h
  rename_i mi l9 hmi
  split_ifs at h with hif
  · simp only [Option.some.injEq] at h
    subst h
    obtain ⟨hnil, hy1, hdm⟩ := hif
    exact ⟨hy1, parseYear4_bound hy, (parseMonth_bound hm).1, (parseMonth_bound hm).2,
      (parseDay_bound hd).1, hdm, parseHour_bound hh, parseMinute_bound hmi⟩
  all_goals simp at h

theorem parse_datetime_valid {s : String} {dt : DateTime}
    (h : parse_datetime s = some dt) : validDT dt := parseDTL_valid h

theorem parse_renderDT (dt : DateTime) (h : validDT dt) :
    parse_datetime (renderDT dt) = some dt := parseDTL_renderDTL dt h


/-- Greedy run of ASCII digits: accumulated value, digit count, rest. -/
def takeDigitsAux (v n : Nat) : List Char → Nat × Nat × List Char
  | c :: rest =>
    if isDigitCh c then takeDigitsAux (v * 10 + digitVal c) (n + 1) rest
    else (v, n, c :: rest)
  | [] => (v, n, [])

/-- Value, length and remainder of the maximal digit run at the head. -/
def takeDigits (l : List Char) : Nat × Nat × List Char := takeDigitsAux 0 0 l

/-- The rational `±(a·10^cb + b) · 10^e / 10^cb`: the value of a float
literal with integer part `a`, fractional part `b` of `cb` digits and
decimal exponent `e`. -/
def floatVal (neg : Bool) (a b cb : Nat) (e : Int) : ℚ :=
  let mant : Int := (a : Int) * 10 ^ cb + (b : Int)
  let m : Int := if neg then -mant else mant
  if 0 ≤ e then mkRat (m * 10 ^ e.toNat) (10 ^ cb)
  else mkRat m (10 ^ (cb + (-e).toNat))

/-- An optional leading sign: `(is_negative, rest)`. -/
def pySign : List Char → Bool × List Char
  | c :: r => if c = '+' then (false, r) else if c = '-' then (true, r) else (false, c :: r)
  | [] => (false, [])

/-- An optional fractional part: `.` followed by a digit run. -/
def pyFrac : List Char → Nat × Nat × List Char
  | c :: r => if c = '.' then takeDigits r else (0, 0, c :: r)
  | [] => (0, 0, [])

/-- Python `float(s)` on numeric literals: optional surrounding whitespace,
optional sign, digits with an optional fractional part (at least one digit
overall), and an optional decimal exponent.  The `inf` and `nan` literals
and underscore digit separators are not modelled. -/
def pyFloat (s : String) : Option ℚ :=
  let l := stripL s.data
  let (neg, l1) := pySign l
  let (a, ca, l2) := takeDigits l1
  let (b, cb, l3) := pyFrac l2
  if ca + cb = 0 then none
  else
    match l3 with
    | [] => some (floatVal neg a b cb 0)
    | c :: r =>
      if c = 'e' ∨ c = 'E' then
        let (esign, r2) := pySign r
        let (ev, en, r3) := takeDigits r2
        if en = 0 then none
        else if r3 = [] then
          some (floatVal neg a b cb (if esign then -(ev : Int) else (ev : Int)))
        else none
      else none

/-- Round-half-even of `100 · x`: the cents integer produced by Python's
`round(x, 2)` (banker's rounding, computed on `x.num · 100 / x.den`). -/
def rhe2 (x : ℚ) : ℤ :=
  let M := x.num * 100
  let D := (x.den : ℤ)
  let q := M / D
  let r := M % D
  if 2 * r < D then q
  else if D < 2 * r then q + 1
  else if q % 2 = 0 then q else q + 1

/-- Python `round(x, 2)`. -/
def pyRound2 (x : ℚ) : ℚ := mkRat (rhe2 x) 100

lemma pyRound2_eq_div (x : ℚ) : pyRound2 x = (rhe2 x : ℚ) / 100 := by
  unfold pyRound2
  rw [Rat.mkRat_eq_div]
  norm_num

lemma rhe2_nonneg {x : ℚ} (hx : 0 < x) : 0 ≤ rhe2 x := by
  have hnum : 0 < x.num := Rat.num_pos.mpr hx
  have hden : (0 : ℤ) < (x.den : ℤ) := by exact_mod_cast x.den_pos
  have hM : 0 ≤ x.num * 100 := by positivity
  have hq : 0 ≤ x.num * 100 / (x.den : ℤ) := Int.ediv_nonneg hM (le_of_lt hden)
  simp only [rhe2]
  split_ifs <;> omega

lemma rhe2_of_cents {x : ℚ} {k : ℤ} (h : x = (k : ℚ) / 100) : rhe2 x = k := by
  have hden : ((x.den : ℚ)) ≠ 0 := by exact_mod_cast x.den_nz
  have hnum : (x.num : ℚ) = x * x.den :=
    (div_eq_iff hden).mp (Rat.num_div_den x)
  have hM : ((x.num * 100 : ℤ) : ℚ) = ((k * (x.den : ℤ) : ℤ) : ℚ) := by
    push_cast
    rw [hnum, h]
    ring
  have hMz : x.num * 100 = k * (x.den : ℤ) := by exact_mod_cast hM
  have hdz : ((x.den : ℤ)) ≠ 0 := by exact_mod_cast x.den_nz
  simp only [rhe2]
  rw [hMz, Int.mul_ediv_cancel _ hdz, Int.mul_emod_left]
  have hden' : (0 : ℤ) < (x.den : ℤ) := by exact_mod_cast x.den_pos
  split_ifs <;> omega

lemma pyRound2_idem (x : ℚ) : pyRound2 (pyRound2 x) = pyRound2 x := by
  show mkRat (rhe2 (pyRound2 x)) 100 = pyRound2 x
  rw [rhe2_of_cents (pyRound2_eq_div x)]
  rfl

lemma pyRound2_nonneg {x : ℚ} (hx : 0 < x) : 0 ≤ pyRound2 x := by
  rw [pyRound2_eq_div]
  have := rhe2_nonneg hx
  positivity

/-- `round(x, 2)` really rounds to a nearest multiple of `1/100`: the cents
integer is within half a cent of `100 · x`. -/
theorem rhe2_near (x : ℚ) : |(rhe2 x : ℚ) - 100 * x| ≤ 1 / 2 := by
  simp only [rhe2]
  set q := x.num * 100 / (x.den : ℤ) with hqdef
  set r := x.num * 100 % (x.den : ℤ) with hrdef
  have hDz : (0 : ℤ) < (x.den : ℤ) := by exact_mod_cast x.den_pos
  have hqr : x.num * 100 = (x.den : ℤ) * q + r := (Int.ediv_add_emod _ _).symm
  have hr0 : 0 ≤ r := Int.emod_nonneg _ (by omega)
  have hrD : r < (x.den : ℤ) := Int.emod_lt_of_pos _ hDz
  have hDq : (0 : ℚ) < (x.den : ℚ) := by exact_mod_cast x.den_pos
  have hden : ((x.den : ℚ)) ≠ 0 := ne_of_gt hDq
  have hxnum : (x.num : ℚ) = x * (x.den : ℚ) :=
    (div_eq_iff hden).mp (Rat.num_div_den x)
  have h100 : 100 * x = (q : ℚ) + (r : ℚ) / (x.den : ℚ) := by
    have hcast : ((x.num * 100 : ℤ) : ℚ) = (((x.den : ℤ) * q + r : ℤ) : ℚ) := by
      exact_mod_cast congrArg (fun z : ℤ => (z : ℚ)) hqr
    push_cast at hcast
    rw [hxnum] at hcast
    field_simp
    linarith [hcast]
  have ht0 : 0 ≤ (r : ℚ) / (x.den : ℚ) := by positivity
  have ht1 : (r : ℚ) / (x.den : ℚ) < 1 := by
    rw [div_lt_one hDq]
    exact_mod_cast hrD
  split_ifs with h1 h2 h3
  · have ht : (r : ℚ) / (x.den : ℚ) ≤ 1 / 2 := by
      rw [div_le_iff hDq]
      push_cast
      have h2r : ((2 * r : ℤ) : ℚ) ≤ ((x.den : ℕ) : ℚ) := by exact_mod_cast le_of_lt h1
      push_cast at h2r
      linarith
    rw [abs_le]
    constructor <;> linarith
  · have ht : 1 / 2 ≤ (r : ℚ) / (x.den : ℚ) := by
      rw [le_div_iff hDq]
      push_cast
      have h2r : ((x.den : ℕ) : ℚ) ≤ ((2 * r : ℤ) : ℚ) := by exact_mod_cast le_of_lt h2
      push_cast at h2r
      linarith
    rw [abs_le]
    push_cast
    constructor <;> linarith
  · have ht : (r : ℚ) / (x.den : ℚ) = 1 / 2 := by
      rw [div_eq_iff hden]
      push_cast
      have h2r : ((2 * r : ℤ) : ℚ) = ((x.den : ℕ) : ℚ) := by
        exact_mod_cast le_antisymm (by omega) (by omega)
      push_cast at h2r
      linarith
    rw [abs_le]
    constructor <;> linarith
  · have ht : (r : ℚ) / (x.den : ℚ) = 1 / 2 := by
      rw [div_eq_iff hden]
      push_cast
      have h2r : ((2 * r : ℤ) : ℚ) = ((x.den : ℕ) : ℚ) := by
        exact_mod_cast le_antisymm (by omega) (by omega)
      push_cast at h2r
      linarith
    rw [abs_le]
    push_cast
    constructor <;> linarith


/-- The validated, canonical record built by `validate_row`. -/
structure NRecord where
  flight_id : String
  origin : String
  destination : String
  departure_datetime : String
  arrival_datetime : String
  price : ℚ
  deriving DecidableEq, Repr

/-- ASCII alphanumeric, as matched by `[A-Za-z0-9]`. -/
def isAlnum (c : Char) : Bool :=
  (48 ≤ c.toNat && c.toNat ≤ 57) || (65 ≤ c.toNat && c.toNat ≤ 90) ||
    (97 ≤ c.toNat && c.toNat ≤ 122)

/-- `RE_FLIGHT_ID.match`, i.e. `^[A-Za-z0-9]{2,8}$` (the validator only
applies it to stripped strings, so the before-trailing-newline reading of
`$` cannot arise). -/
def RE_FLIGHT_ID (s : String) : Bool :=
  2 ≤ s.data.length && s.data.length ≤ 8 && s.data.all isAlnum

/-- `RE_AIRPORT.match`, i.e. `^[A-Z]{3}$`. -/
def RE_AIRPORT (s : String) : Bool :=
  s.data.length = 3 && s.data.all (fun c => 65 ≤ c.toNat && c.toNat ≤ 90)

/-- Field `i` of a row: `cells[i].strip()`. -/
def vrField (cells : List String) (i : Nat) : String := pyStrip (cells.getD i "")

/-- `parse_datetime(s) if s else None`. -/
def vrDT (s : String) : Option DateTime := if s = "" then none else parse_datetime s

/-- The `price` variable after the `try: float(price_s)` block: `none` when
the field is blank or unparseable. -/
def vrPrice (s : String) : Option ℚ := if s = "" then none else pyFloat s

/-- The accumulated reason list of `validate_row` for a row with at least
six cells: every check appends its reasons in this fixed source order. -/
def vrErrors (cells : List String) : List String :=
  let flight_id := vrField cells 0
  let origin := vrField cells 1
  let destination := vrField cells 2
  let dep_s := vrField cells 3
  let arr_s := vrField cells 4
  let price_s := vrField cells 5
  (if flight_id = "" then ["missing flight_id"] else []) ++
  (if origin = "" then ["missing origin field"] else []) ++
  (if destination = "" then ["missing destination field"] else []) ++
  (if dep_s = "" then ["missing departure_datetime"] else []) ++
  (if arr_s = "" then ["missing arrival_datetime"] else []) ++
  (if price_s = "" then ["missing price"] else []) ++
  (if flight_id ≠ "" ∧ ¬RE_FLIGHT_ID flight_id then
    (if flight_id.data.length < 2 ∨ 8 < flight_id.data.length then
      ["flight_id length must be 2-8 alphanumeric characters"]
    else ["invalid flight_id format"])
   else []) ++
  (if origin ≠ "" ∧ ¬RE_AIRPORT origin then ["invalid origin code"] else []) ++
  (if destination ≠ "" ∧ ¬RE_AIRPORT destination then ["invalid destination code"]
   else []) ++
  (if dep_s ≠ "" ∧ vrDT dep_s = none then ["invalid departure datetime"] else []) ++
  (if arr_s ≠ "" ∧ vrDT arr_s = none then ["invalid arrival datetime"] else []) ++
  (match vrDT dep_s, vrDT arr_s with
   | some dd, some ad => if dtLe ad dd then ["arrival before or equal to departure"] else []
   | _, _ => []) ++
  (if price_s = "" then []
   else
     match pyFloat price_s with
     | none => ["invalid price format"]
     | some p => if p ≤ 0 then ["negative or zero price value"] else [])

/-- `validate_row(cells)`, returning `(is_valid, record, errors)`.  The
catch-all arm of the `match` is unreachable: an empty error list forces
both timestamps and the price to have parsed (`vrErrors_nil_parse`). -/
def validate_row (cells : List String) : Bool × Option NRecord × List String :=
  if cells.length < 6 then (false, none, ["missing required fields"])
  else if vrErrors cells = [] then
    match vrDT (vrField cells 3), vrDT (vrField cells 4), vrPrice (vrField cells 5) with
    | some dd, some ad, some p =>
      (true, some ⟨vrField cells 0, vrField cells 1, vrField cells 2,
        renderDT dd, renderDT ad, pyRound2 p⟩, [])
    | _, _, _ => (false, none, [])
  else (false, none, vrErrors cells)


lemma mem_ite_singleton {α : Type} {c : Prop} [Decidable c] {a x : α} :
    (x ∈ if c then [a] else ([] : List α)) ↔ c ∧ x = a := by
  split_ifs with h <;> simp [h]

lemma mem_ite_ite {α : Type} {c d : Prop} [Decidable c] [Decidable d] {a b x : α} :
    (x ∈ if c then (if d then [a] else [b]) else ([] : List α)) ↔
      (c ∧ d ∧ x = a) ∨ (c ∧ ¬d ∧ x = b) := by
  split_ifs with h h' <;> simp_all

lemma mem_ordBlock {d a : String} {x : String} :
    (x ∈ (match vrDT d, vrDT a with
      | some dd, some ad =>
        if dtLe ad dd = true then ["arrival before or equal to departure"] else []
      | _, _ => ([] : List String))) ↔
    (∃ dd ad, vrDT d = some dd ∧ vrDT a = some ad ∧ dtLe ad dd = true ∧
      x = "arrival before or equal to departure") := by
  cases hdd : vrDT d <;> cases had : vrDT a <;> simp [mem_ite_singleton] <;> tauto

lemma mem_priceBlock {s x : String} :
    (x ∈ (if s = "" then ([] : List String)
      else
        match pyFloat s with
        | none => ["invalid price format"]
        | some p => if p ≤ 0 then ["negative or zero price value"] else [])) ↔
    ((s ≠ "" ∧ pyFloat s = none ∧ x = "invalid price format") ∨
      (s ≠ "" ∧ (∃ p, pyFloat s = some p ∧ p ≤ 0) ∧ x = "negative or zero price value")) := by
  split_ifs with hs
  · simp [hs]
  · cases hf : pyFloat s
    · simp [hs, hf]
    · rename_i p
      by_cases hp : p ≤ 0
      · simp [hs, hf, hp, mem_ite_singleton]
      · simp [hs, hf, hp]

/-- Membership in the accumulated reason list, one disjunct per check. -/
lemma mem_vrErrors (cells : List String) (x : String) :
    x ∈ vrErrors cells ↔
      ((vrField cells 0 = "" ∧ x = "missing flight_id") ∨
      (vrField cells 1 = "" ∧ x = "missing origin field") ∨
      (vrField cells 2 = "" ∧ x = "missing destination field") ∨
      (vrField cells 3 = "" ∧ x = "missing departure_datetime") ∨
      (vrField cells 4 = "" ∧ x = "missing arrival_datetime") ∨
      (vrField cells 5 = "" ∧ x = "missing price") ∨
      ((vrField cells 0 ≠ "" ∧ ¬RE_FLIGHT_ID (vrField cells 0)) ∧
        ((vrField cells 0).data.length < 2 ∨ 8 < (vrField cells 0).data.length) ∧
        x = "flight_id length must be 2-8 alphanumeric characters") ∨
      ((vrField cells 0 ≠ "" ∧ ¬RE_FLIGHT_ID (vrField cells 0)) ∧
        ¬((vrField cells 0).data.length < 2 ∨ 8 < (vrField cells 0).data.length) ∧
        x = "invalid flight_id format") ∨
      ((vrField cells 1 ≠ "" ∧ ¬RE_AIRPORT (vrField cells 1)) ∧
        x = "invalid origin code") ∨
      ((vrField cells 2 ≠ "" ∧ ¬RE_AIRPORT (vrField cells 2)) ∧
        x = "invalid destination code") ∨
      ((vrField cells 3 ≠ "" ∧ vrDT (vrField cells 3) = none) ∧
        x = "invalid departure datetime") ∨
      ((vrField cells 4 ≠ "" ∧ vrDT (vrField cells 4) = none) ∧
        x = "invalid arrival datetime") ∨
      (∃ dd ad, vrDT (vrField cells 3) = some dd ∧ vrDT (vrField cells 4) = some ad ∧
        dtLe ad dd = true ∧ x = "arrival before or equal to departure") ∨
      ((vrField cells 5 ≠ "" ∧ pyFloat (vrField cells 5) = none ∧
        x = "invalid price format") ∨
      (vrField cells 5 ≠ "" ∧ (∃ p, pyFloat (vrField cells 5) = some p ∧ p ≤ 0) ∧
        x = "negative or zero price value"))) := by
  simp only [vrErrors, List.mem_append, mem_ite_singleton, mem_ite_ite, mem_ordBlock,
    mem_priceBlock]
  simp only [or_assoc]

/-- A row that accumulates no reasons has every field present and valid. -/
lemma vrErrors_nil_facts {cells : List String} (h : vrErrors cells = []) :
    vrField cells 0 ≠ "" ∧ RE_FLIGHT_ID (vrField cells 0) = true ∧
    vrField cells 1 ≠ "" ∧ RE_AIRPORT (vrField cells 1) = true ∧
    vrField cells 2 ≠ "" ∧ RE_AIRPORT (vrField cells 2) = true ∧
    vrField cells 3 ≠ "" ∧ (∃ dd, vrDT (vrField cells 3) = some dd) ∧
    vrField cells 4 ≠ "" ∧ (∃ ad, vrDT (vrField cells 4) = some ad) ∧
    (∀ dd ad, vrDT (vrField cells 3) = some dd → vrDT (vrField cells 4) = some ad →
      dtLe ad dd = false) ∧
    vrField cells 5 ≠ "" ∧ (∃ p, pyFloat (vrField cells 5) = some p ∧ 0 < p) := by
  have hmem : ∀ x, x ∉ vrErrors cells := by
    intro x
    rw [h]
    exact List.not_mem_nil x
  have h1 := hmem "missing flight_id"
  have h2 := hmem "missing origin field"
  have h3 := hmem "missing destination field"
  have h4 := hmem "missing departure_datetime"
  have h5 := hmem "missing arrival_datetime"
  have h6 := hmem "missing price"
  have h7 := hmem "flight_id length must be 2-8 alphanumeric characters"
  have h8 := hmem "invalid flight_id format"
  have h9 := hmem "invalid origin code"
  have h10 := hmem "invalid destination code"
  have h11 := hmem "invalid departure datetime"
  have h12 := hmem "invalid arrival datetime"
  have h13 := hmem "arrival before or equal to departure"
  have h14 := hmem "invalid price format"
  have h15 := hmem "negative or zero price value"
  rw [mem_vrErrors] at h1 h2 h3 h4 h5 h6 h7 h8 h9 h10 h11 h12 h13 h14 h15
  simp at h1 h2 h3 h4 h5 h6 h7 h8 h9 h10 h11 h12 h13 h14 h15
  refine ⟨h1, ?_, h2, h9 h2, h3, h10 h3, h4, ?_, h5, ?_, ?_, h6, ?_⟩
  · by_contra hre
    have hre' : RE_FLIGHT_ID (vrField cells 0) = false := by simpa using hre
    obtain ⟨ha, hb⟩ := h7 h1 hre'
    have := h8 h1 hre' ha
    omega
  · rcases ho : vrDT (vrField cells 3) with _ | dd
    · exact absurd ho (h11 h4)
    · exact ⟨dd, rfl⟩
  · rcases ho : vrDT (vrField cells 4) with _ | ad
    · exact absurd ho (h12 h5)
    · exact ⟨ad, rfl⟩
  · intro dd ad hdd had
    exact h13 dd hdd ad had
  · rcases hf : pyFloat (vrField cells 5) with _ | p
    · exact absurd hf (h14 h6)
    · exact ⟨p, rfl, h15 h6 p hf⟩

/-- Rows with fewer than six cells short-circuit with the single
`missing required fields` reason. -/
lemma validate_row_short {cells : List String} (h : cells.length < 6) :
    validate_row cells = (false, none, ["missing required fields"]) := by
  simp [validate_row, h]

/-- For rows with at least six cells, the returned error list is exactly
the accumulated reason list. -/
lemma validate_row_errors {cells : List String} (h6 : ¬cells.length < 6) :
    (validate_row cells).2.2 = vrErrors cells := by
  unfold validate_row
  rw [if_neg h6]
  by_cases he : vrErrors cells = []
  · rw [if_pos he, he]
    split <;> rfl
  · rw [if_neg he]

/-- Building the record when every parse succeeded. -/
lemma validate_row_build {cells : List String} {dd ad : DateTime} {p : ℚ}
    (hlen : ¬cells.length < 6) (he : vrErrors cells = [])
    (hdd : vrDT (vrField cells 3) = some dd) (had : vrDT (vrField cells 4) = some ad)
    (hp : vrPrice (vrField cells 5) = some p) :
    validate_row cells = (true, some ⟨vrField cells 0, vrField cells 1, vrField cells 2,
      renderDT dd, renderDT ad, pyRound2 p⟩, []) := by
  unfold validate_row
  rw [if_neg hlen, if_pos he, hdd, had, hp]

/-- Inversion: a produced record determines all intermediate parses. -/
lemma validate_row_record {cells : List String} {r : NRecord}
    (h : (validate_row cells).2.1 = some r) :
    ∃ dd ad p, ¬cells.length < 6 ∧ vrErrors cells = [] ∧
      vrDT (vrField cells 3) = some dd ∧ vrDT (vrField cells 4) = some ad ∧
      pyFloat (vrField cells 5) = some p ∧ 0 < p ∧
      r = ⟨vrField cells 0, vrField cells 1, vrField cells 2,
        renderDT dd, renderDT ad, pyRound2 p⟩ ∧
      validate_row cells = (true, some r, []) := by
  unfold validate_row at h
  split_ifs at h with hlen he
  all_goals try (exact Option.noConfusion h)
  obtain ⟨hf0, hre, hf1, hra1, hf2, hra2, hf3, ⟨dd0, hdd0⟩, hf4, ⟨ad0, had0⟩,
    hord, hf5, p0, hp0, hp0pos⟩ := vrErrors_nil_facts he
  have hpv : vrPrice (vrField cells 5) = some p0 := by
    unfold vrPrice
    rw [if_neg hf5]
    exact hp0
  rw [hdd0, had0, hpv] at h
  have h' : some (⟨vrField cells 0, vrField cells 1, vrField cells 2, renderDT dd0,
      renderDT ad0, pyRound2 p0⟩ : NRecord) = some r := h
  injection h' with h''
  refine ⟨dd0, ad0, p0, hlen, he, hdd0, had0, hp0, hp0pos, h''.symm, ?_⟩
  rw [validate_row_build hlen he hdd0 had0 hpv, h'']


/-- Python `", ".join(msgs)` (or any separator). -/
def pyJoin (sep : String) : List String → String
  | [] => ""
  | [x] => x
  | x :: y :: xs => x ++ sep ++ pyJoin sep (y :: xs)

/-- Python `s.lower()` (ASCII range, all the header token needs). -/
def pyLower (s : String) : String :=
  ⟨s.data.map fun c => if 65 ≤ c.toNat ∧ c.toNat ≤ 90 then Char.ofNat (c.toNat + 32) else c⟩

/-- States of the CSV field scanner (default `csv` dialect: delimiter `,`,
quote `"`, doubled quotes inside a quoted field, non-strict). -/
inductive CsvState
  | start
  | inField
  | inQuoted
  | quoteInQuoted
  deriving DecidableEq, Repr

/-- One pass of `csv.reader` over a single line. -/
def csvSplitAux (st : CsvState) (cur : List Char) (acc : List (List Char)) :
    List Char → List (List Char)
  | [] => acc ++ [cur]
  | c :: rest =>
    match st with
    | CsvState.start =>
      if c = '"' then csvSplitAux CsvState.inQuoted cur acc rest
      else if c = ',' then csvSplitAux CsvState.start [] (acc ++ [cur]) rest
      else csvSplitAux CsvState.inField (cur ++ [c]) acc rest
    | CsvState.inField =>
      if c = ',' then csvSplitAux CsvState.start [] (acc ++ [cur]) rest
      else csvSplitAux CsvState.inField (cur ++ [c]) acc rest
    | CsvState.inQuoted =>
      if c = '"' then csvSplitAux CsvState.quoteInQuoted cur acc rest
      else csvSplitAux CsvState.inQuoted (cur ++ [c]) acc rest
    | CsvState.quoteInQuoted =>
      if c = '"' then csvSplitAux CsvState.inQuoted (cur ++ [c]) acc rest
      else if c = ',' then csvSplitAux CsvState.start [] (acc ++ [cur]) rest
      else csvSplitAux CsvState.inField (cur ++ [c]) acc rest

/-- `next(csv.reader([line]))` wrapped in `try/except`: the reader only
raises on an embedded NUL character ("line contains NUL"). -/
def csvSplit (s : String) : Option (List String) :=
  if s.data.contains (Char.ofNat 0) then none
  else some ((csvSplitAux CsvState.start [] [] s.data).map fun l => (⟨l⟩ : String))

/-- The informational diagnostic attached to comment lines. -/
def commentMsg : String := "comment line, ignored for data parsing"

/-- One iteration of the scan loop in `parse_csv_file`: the records and the
diagnostics `(line number, line, message)` this line contributes. -/
def processLine (idx : Nat) (raw : String) : List NRecord × List (Nat × String × String) :=
  let line := pyRstripNl raw
  if pyStrip line = "" then ([], [])
  else if (pyLstrip line).data.head? = some '#' then ([], [(idx, line, commentMsg)])
  else
    match csvSplit line with
    | none => ([], [(idx, line, "malformed CSV line")])
    | some cells =>
      if pyLower (pyStrip (cells.headD "")) = "flight_id" then ([], [])
      else
        match validate_row cells with
        | (true, some r, _) => ([r], [])
        | (_, _, msgs) => ([], [(idx, line, pyJoin ", " msgs)])

/-- The scan loop from line number `i` on. -/
def scanLines : Nat → List String → List NRecord × List (Nat × String × String)
  | _, [] => ([], [])
  | i, l :: ls =>
    let res := processLine i l
    let rest := scanLines (i + 1) ls
    (res.1 ++ rest.1, res.2 ++ rest.2)

/-- `parse_csv_file`, with the file already split into raw lines:
`(valid_records, errors)`, lines numbered from 1. -/
def parse_csv_file (lines : List String) : List NRecord × List (Nat × String × String) :=
  scanLines 1 lines

lemma processLine_comment (idx : Nat) (raw : String)
    (h : (pyLstrip (pyRstripNl raw)).data.head? = some '#') :
    processLine idx raw = ([], [(idx, pyRstripNl raw, commentMsg)]) := by
  have hne : pyStrip (pyRstripNl raw) ≠ "" := by
    intro hc
    have hdata : stripL (pyRstripNl raw).data = [] := by
      have := congrArg String.data hc
      exact this
    unfold stripL at hdata
    rcases hl : (pyRstripNl raw).data.dropWhile pySpace with _ | ⟨c, t⟩
    · have h' : ([] : List Char).head? = some '#' := by
        rw [← hl]
        exact h
      simp at h'
    · have h' : (c :: t).head? = some '#' := by
        rw [← hl]
        exact h
      have hc' : c = '#' := by simpa using h'
      rw [hl] at hdata
      have : ∀ x ∈ (c :: t).reverse, pySpace x = true := by
        rw [← List.dropWhile_eq_nil_iff]
        simpa using congrArg List.reverse hdata
      have hcs : pySpace c = true := this c (by simp)
      rw [hc'] at hcs
      exact absurd hcs (by decide)
  unfold processLine
  rw [if_neg hne, if_pos h]

lemma ne_comment_of_head {s : String} (h : s.data.head? ≠ some 'c') : s ≠ commentMsg := by
  intro he
  rw [he] at h
  exact h rfl

lemma pyJoin_head (r : String) (rest : List String) (hr : r.data ≠ []) :
    (pyJoin ", " (r :: rest)).data.head? = r.data.head? := by
  rcases rest with _ | ⟨y, ys⟩
  · rfl
  · show ((r ++ ", ") ++ pyJoin ", " (y :: ys)).data.head? = r.data.head?
    rcases hd : r.data with _ | ⟨c, t⟩
    · exact absurd hd hr
    · simp [String.data_append, List.head?_append, hd]

/-- No joined reason list of the validator reads as the comment diagnostic:
the informational comment message is distinct from every validation-error
diagnostic the validator can emit. -/
lemma pyJoin_validate_ne_comment (cells : List String) :
    pyJoin ", " ((validate_row cells).2.2) ≠ commentMsg := by
  by_cases hlen : cells.length < 6
  · rw [validate_row_short hlen]
    decide
  · have h22 : (validate_row cells).2.2 = vrErrors cells := validate_row_errors hlen
    rw [h22]
    rcases he : vrErrors cells with _ | ⟨r, rest⟩
    · decide
    · have hr : r ∈ vrErrors cells := by
        rw [he]
        exact List.mem_cons_self r rest
      rw [mem_vrErrors] at hr
      rcases hr with ⟨-, h⟩ | ⟨-, h⟩ | ⟨-, h⟩ | ⟨-, h⟩ | ⟨-, h⟩ | ⟨-, h⟩ | ⟨-, -, h⟩
        | ⟨-, -, h⟩ | ⟨-, h⟩ | ⟨-, h⟩ | ⟨-, h⟩ | ⟨-, h⟩ | ⟨dd, ad, -, -, -, h⟩
        | ⟨-, -, h⟩ | ⟨-, -, h⟩ <;>
        (subst h
         apply ne_comment_of_head
         rw [pyJoin_head _ _ (by decide)]
         decide)

lemma processLine_fst_idx (i j : Nat) (l : String) :
    (processLine i l).1 = (processLine j l).1 := by
  dsimp only [processLine]
  split_ifs <;> try rfl
  cases hs : csvSplit (pyRstripNl l) with
  | none => rfl
  | some cells =>
    dsimp only
    split_ifs <;> try rfl
    rcases hv : validate_row cells with ⟨b, rec, msgs⟩
    cases b <;> cases rec <;> rfl

lemma scanLines_fst_idx (i j : Nat) (ls : List String) :
    (scanLines i ls).1 = (scanLines j ls).1 := by
  induction ls generalizing i j with
  | nil => rfl
  | cons l ls ih =>
    simp only [scanLines]
    rw [ih (i + 1) (j + 1), processLine_fst_idx i j]

lemma scanLines_append (i : Nat) (pre post : List String) :
    scanLines i (pre ++ post)
      = ((scanLines i pre).1 ++ (scanLines (i + pre.length) post).1,
         (scanLines i pre).2 ++ (scanLines (i + pre.length) post).2) := by
  induction pre generalizing i with
  | nil => simp [scanLines]
  | cons l ls ih =>
    simp only [List.cons_append, scanLines, List.append_eq, ih (i + 1), List.length_cons]
    rw [show i + (ls.length + 1) = i + 1 + ls.length by omega]
    refine Prod.ext ?_ ?_ <;> simp only [List.append_assoc]


/-- A JSON scalar as it appears in query objects and dataset documents
(JSON `null`, arrays and objects as field values are not modelled). -/
inductive JVal
  | num (q : ℚ)
  | str (s : String)
  deriving DecidableEq, Repr

/-- `float(v)` on a JSON scalar. -/
def pyFloatJ : JVal → Option ℚ
  | JVal.num q => some q
  | JVal.str s => pyFloat s

/-- Python truthiness of a JSON scalar. -/
def jTruthy : JVal → Bool
  | JVal.num q => decide (q ≠ 0)
  | JVal.str s => decide (s ≠ "")

/-- `parse_datetime` applied to a JSON scalar: the `try/except` inside
`parse_datetime` turns the `TypeError` on a non-string into `None`. -/
def parseDTJ : JVal → Option DateTime
  | JVal.str s => parse_datetime s
  | JVal.num _ => none

/-- `query.get(k)` on a JSON object decoded as a key/value list: the last
binding of a duplicated key wins, as in `json.load`. -/
def qget (q : List (String × JVal)) (k : String) : Option JVal :=
  q.foldl (fun acc p => if p.1 = k then some p.2 else acc) none

/-- A record of the dataset document: the six recognized fields, each
possibly absent (`rec.get` / `rec[...]` semantics). -/
structure JRecord where
  flight_id : Option JVal := none
  origin : Option JVal := none
  destination : Option JVal := none
  departure_datetime : Option JVal := none
  arrival_datetime : Option JVal := none
  price : Option JVal := none
  deriving DecidableEq, Repr

/-- The exact-match loop over `("flight_id", "origin", "destination")`:
`true` when some present key differs from the record's value
(`rec.get(key) != query[key]`). -/
def stringMismatch (q : List (String × JVal)) (rec : JRecord) : Bool :=
  (match qget q "flight_id" with
   | some v => decide (rec.flight_id ≠ some v)
   | none => false) ||
  (match qget q "origin" with
   | some v => decide (rec.origin ≠ some v)
   | none => false) ||
  (match qget q "destination" with
   | some v => decide (rec.destination ≠ some v)
   | none => false)

/-- The price ceiling check: `float(rec.get("price", 0)) > q_price` skips
the record; an unparseable record price raises. -/
def pricePass (qp : Option ℚ) (rec : JRecord) : Except String Bool :=
  match qp with
  | none => Except.ok true
  | some qpv =>
    match pyFloatJ (rec.price.getD (JVal.num 0)) with
    | none => Except.error "ValueError: could not convert string to float"
    | some rp => if qpv < rp then Except.ok false else Except.ok true

/-- The arrival upper-bound check: `rec["arrival_datetime"]` raises a
`KeyError` when absent; an unparseable value leaves `r_arr` as `None` and
the comparison with a datetime raises a `TypeError`. -/
def arrPass (qa : Option DateTime) (qp : Option ℚ) (rec : JRecord) : Except String Bool :=
  match qa with
  | none => pricePass qp rec
  | some v =>
    match rec.arrival_datetime with
    | none => Except.error "KeyError: arrival_datetime"
    | some jv =>
      match parseDTJ jv with
      | none => Except.error "TypeError: not supported between instances"
      | some ra => if dtLt v ra then Except.ok false else pricePass qp rec

/-- The departure lower-bound check, then the remaining checks. -/
def depPass (qd qa : Option DateTime) (qp : Option ℚ) (rec : JRecord) :
    Except String Bool :=
  match qd with
  | none => arrPass qa qp rec
  | some v =>
    match rec.departure_datetime with
    | none => Except.error "KeyError: departure_datetime"
    | some jv =>
      match parseDTJ jv with
      | none => Except.error "TypeError: not supported between instances"
      | some rd => if dtLt rd v then Except.ok false else arrPass qa qp rec

/-- Whether one record matches, or the exception the loop body raises. -/
def recordPass (qd qa : Option DateTime) (qp : Option ℚ) (q : List (String × JVal))
    (rec : JRecord) : Except String Bool :=
  if stringMismatch q rec then Except.ok false else depPass qd qa qp rec

/-- The `for rec in db` loop: matches are appended in dataset order, the
first exception aborts the whole call. -/
def matchLoop (q : List (String × JVal)) (qd qa : Option DateTime) (qp : Option ℚ) :
    List JRecord → Except String (List JRecord)
  | [] => Except.ok []
  | r :: rest =>
    match recordPass qd qa qp q r with
    | Except.error e => Except.error e
    | Except.ok ok =>
      match matchLoop q qd qa qp rest with
      | Except.error e => Except.error e
      | Except.ok tail => Except.ok (if ok then r :: tail else tail)

/-- `q_dep = parse_datetime(query.get("departure_datetime")) if
query.get("departure_datetime") else None`. -/
def qDepDT (q : List (String × JVal)) : Option DateTime :=
  match qget q "departure_datetime" with
  | some v => if jTruthy v then parseDTJ v else none
  | none => none

/-- `q_arr`, symmetric to `qDepDT`. -/
def qArrDT (q : List (String × JVal)) : Option DateTime :=
  match qget q "arrival_datetime" with
  | some v => if jTruthy v then parseDTJ v else none
  | none => none

/-- `match_query(db, query)`: pre-parse the query's datetime and price
constraints (an unparseable datetime silently becomes `None`; an
unparseable price raises), then filter the dataset. -/
def match_query (db : List JRecord) (q : List (String × JVal)) :
    Except String (List JRecord) :=
  match qget q "price" with
  | some v =>
    match pyFloatJ v with
    | none => Except.error "ValueError: could not convert string to float"
    | some p => matchLoop q (qDepDT q) (qArrDT q) (some p) db
  | none => matchLoop q (qDepDT q) (qArrDT q) none db

instance {e a : Type} [DecidableEq e] [DecidableEq a] : DecidableEq (Except e a) := fun x y =>
  match x, y with
  | Except.error e1, Except.error e2 =>
    if h : e1 = e2 then Decidable.isTrue (by rw [h])
    else Decidable.isFalse (by intro hc; injection hc; contradiction)
  | Except.ok v1, Except.ok v2 =>
    if h : v1 = v2 then Decidable.isTrue (by rw [h])
    else Decidable.isFalse (by intro hc; injection hc; contradiction)
  | Except.error _, Except.ok _ => Decidable.isFalse (by intro hc; exact Except.noConfusion hc)
  | Except.ok _, Except.error _ => Decidable.isFalse (by intro hc; exact Except.noConfusion hc)


lemma dtLt_eq_not_dtLe (a b : DateTime) : dtLt a b = !dtLe b a := by
  unfold dtLt dtLe
  split_ifs <;> simp only [← decide_not, decide_eq_decide] <;> omega

/-- The matching predicate exactly as the specification states it: a record
matches iff every constraint present in the query holds — exact equality
for the three identifier fields, an inclusive lower bound on the departure,
an inclusive upper bound on the arrival, and an inclusive price ceiling;
absent constraints (and unrecognized keys) impose nothing. -/
def specMatches (q : List (String × JVal)) (r : JRecord) : Bool :=
  (match qget q "flight_id" with
   | some v => decide (r.flight_id = some v)
   | none => true) &&
  (match qget q "origin" with
   | some v => decide (r.origin = some v)
   | none => true) &&
  (match qget q "destination" with
   | some v => decide (r.destination = some v)
   | none => true) &&
  (match qget q "departure_datetime" with
   | some v =>
     match parseDTJ v, r.departure_datetime.bind parseDTJ with
     | some qv, some rv => dtLe qv rv
     | _, _ => false
   | none => true) &&
  (match qget q "arrival_datetime" with
   | some v =>
     match parseDTJ v, r.arrival_datetime.bind parseDTJ with
     | some qv, some rv => dtLe rv qv
     | _, _ => false
   | none => true) &&
  (match qget q "price" with
   | some v =>
     match pyFloatJ v, pyFloatJ (r.price.getD (JVal.num 0)) with
     | some qp, some rp => decide (rp ≤ qp)
     | _, _ => false
   | none => true)

lemma parseDTJ_truthy {v : JVal} {dt : DateTime} (h : parseDTJ v = some dt) :
    jTruthy v = true := by
  cases v with
  | num q => simp [parseDTJ] at h
  | str s =>
    simp only [jTruthy, decide_eq_true_eq]
    intro hs
    subst hs
    have hn : parseDTJ (JVal.str "") = none := by decide
    rw [hn] at h
    exact Option.noConfusion h

lemma pricePass_spec (q : List (String × JVal)) (rec : JRecord)
    (hqp : ∀ v, qget q "price" = some v → (pyFloatJ v).isSome)
    (hrp : (qget q "price").isSome → (pyFloatJ (rec.price.getD (JVal.num 0))).isSome) :
    pricePass (match qget q "price" with | some v => pyFloatJ v | none => none) rec
      = Except.ok (match qget q "price" with
        | some v =>
          match pyFloatJ v, pyFloatJ (rec.price.getD (JVal.num 0)) with
          | some qp, some rp => decide (rp ≤ qp)
          | _, _ => false
        | none => true) := by
  cases hq : qget q "price" with
  | none => rfl
  | some v =>
    obtain ⟨qp, hqp'⟩ := Option.isSome_iff_exists.mp (hqp v hq)
    obtain ⟨rp, hrp'⟩ := Option.isSome_iff_exists.mp (hrp (by rw [hq]; rfl))
    dsimp only
    rw [hqp', hrp']
    unfold pricePass
    rw [hrp']
    dsimp only
    by_cases h : qp < rp
    · rw [if_pos h]
      simp [not_le.mpr h]
    · rw [if_neg h]
      simp [not_lt.mp h]

lemma arrPass_spec (q : List (String × JVal)) (rec : JRecord)
    (hqa : ∀ v, qget q "arrival_datetime" = some v → (parseDTJ v).isSome)
    (hqp : ∀ v, qget q "price" = some v → (pyFloatJ v).isSome)
    (hra : (qget q "arrival_datetime").isSome →
      ∃ jv dt, rec.arrival_datetime = some jv ∧ parseDTJ jv = some dt)
    (hrp : (qget q "price").isSome → (pyFloatJ (rec.price.getD (JVal.num 0))).isSome) :
    arrPass (qArrDT q) (match qget q "price" with | some v => pyFloatJ v | none => none) rec
      = Except.ok ((match qget q "arrival_datetime" with
        | some v =>
          match parseDTJ v, rec.arrival_datetime.bind parseDTJ with
          | some qv, some rv => dtLe rv qv
          | _, _ => false
        | none => true) &&
        (match qget q "price" with
        | some v =>
          match pyFloatJ v, pyFloatJ (rec.price.getD (JVal.num 0)) with
          | some qp, some rp => decide (rp ≤ qp)
          | _, _ => false
        | none => true)) := by
  cases hq : qget q "arrival_datetime" with
  | none =>
    have hdt : qArrDT q = none := by
      unfold qArrDT
      rw [hq]
    rw [hdt]
    show pricePass _ rec = _
    rw [pricePass_spec q rec hqp hrp]
    simp
  | some v =>
    obtain ⟨jv, dt, hjv, hdt⟩ := hra (by rw [hq]; rfl)
    obtain ⟨qv, hqv⟩ := Option.isSome_iff_exists.mp (hqa v hq)
    have hdtq : qArrDT q = some qv := by
      unfold qArrDT
      rw [hq]
      dsimp only
      rw [if_pos (parseDTJ_truthy hqv), hqv]
    dsimp only
    rw [hdtq, hqv]
    unfold arrPass
    dsimp only
    rw [hjv]
    simp only [Option.some_bind]
    rw [hdt]
    dsimp only
    rw [dtLt_eq_not_dtLe qv dt]
    by_cases h : dtLe dt qv
    · rw [h]
      simp only [Bool.not_true, if_neg (by simp : ¬(false = true))]
      rw [pricePass_spec q rec hqp hrp]
      simp [h]
    · have h' : dtLe dt qv = false := by
        simpa using h
      rw [h']
      simp [h']

lemma depPass_spec (q : List (String × JVal)) (rec : JRecord)
    (hqd : ∀ v, qget q "departure_datetime" = some v → (parseDTJ v).isSome)
    (hqa : ∀ v, qget q "arrival_datetime" = some v → (parseDTJ v).isSome)
    (hqp : ∀ v, qget q "price" = some v → (pyFloatJ v).isSome)
    (hrd : (qget q "departure_datetime").isSome →
      ∃ jv dt, rec.departure_datetime = some jv ∧ parseDTJ jv = some dt)
    (hra : (qget q "arrival_datetime").isSome →
      ∃ jv dt, rec.arrival_datetime = some jv ∧ parseDTJ jv = some dt)
    (hrp : (qget q "price").isSome → (pyFloatJ (rec.price.getD (JVal.num 0))).isSome) :
    depPass (qDepDT q) (qArrDT q)
      (match qget q "price" with | some v => pyFloatJ v | none => none) rec
      = Except.ok ((match qget q "departure_datetime" with
        | some v =>
          match parseDTJ v, rec.departure_datetime.bind parseDTJ with
          | some qv, some rv => dtLe qv rv
          | _, _ => false
        | none => true) &&
        (match qget q "arrival_datetime" with
        | some v =>
          match parseDTJ v, rec.arrival_datetime.bind parseDTJ with
          | some qv, some rv => dtLe rv qv
          | _, _ => false
        | none => true) &&
        (match qget q "price" with
        | some v =>
          match pyFloatJ v, pyFloatJ (rec.price.getD (JVal.num 0)) with
          | some qp, some rp => decide (rp ≤ qp)
          | _, _ => false
        | none => true)) := by
  cases hq : qget q "departure_datetime" with
  | none =>
    have hdt : qDepDT q = none := by
      unfold qDepDT
      rw [hq]
    rw [hdt]
    show arrPass _ _ rec = _
    rw [arrPass_spec q rec hqa hqp hra hrp]
    simp
  | some v =>
    obtain ⟨jv, dt, hjv, hdt⟩ := hrd (by rw [hq]; rfl)
    obtain ⟨qv, hqv⟩ := Option.isSome_iff_exists.mp (hqd v hq)
    have hdtq : qDepDT q = some qv := by
      unfold qDepDT
      rw [hq]
      dsimp only
      rw [if_pos (parseDTJ_truthy hqv), hqv]
    dsimp only
    rw [hdtq, hqv]
    unfold depPass
    dsimp only
    rw [hjv]
    simp only [Option.some_bind]
    rw [hdt]
    dsimp only
    rw [dtLt_eq_not_dtLe dt qv]
    by_cases h : dtLe qv dt
    · rw [h]
      simp only [Bool.not_true, if_neg (by simp : ¬(false = true))]
      rw [arrPass_spec q rec hqa hqp hra hrp]
      simp [h]
    · have h' : dtLe qv dt = false := by
        simpa using h
      rw [h']
      simp [h']

lemma stringMismatch_eq_not (q : List (String × JVal)) (rec : JRecord) :
    stringMismatch q rec
      = !((match qget q "flight_id" with
          | some v => decide (rec.flight_id = some v)
          | none => true) &&
         (match qget q "origin" with
          | some v => decide (rec.origin = some v)
          | none => true) &&
         (match qget q "destination" with
          | some v => decide (rec.destination = some v)
          | none => true)) := by
  unfold stringMismatch
  cases qget q "flight_id" <;> cases qget q "origin" <;> cases qget q "destination" <;>
    simp [decide_not]

lemma recordPass_spec (q : List (String × JVal)) (rec : JRecord)
    (hqd : ∀ v, qget q "departure_datetime" = some v → (parseDTJ v).isSome)
    (hqa : ∀ v, qget q "arrival_datetime" = some v → (parseDTJ v).isSome)
    (hqp : ∀ v, qget q "price" = some v → (pyFloatJ v).isSome)
    (hrd : (qget q "departure_datetime").isSome →
      ∃ jv dt, rec.departure_datetime = some jv ∧ parseDTJ jv = some dt)
    (hra : (qget q "arrival_datetime").isSome →
      ∃ jv dt, rec.arrival_datetime = some jv ∧ parseDTJ jv = some dt)
    (hrp : (qget q "price").isSome → (pyFloatJ (rec.price.getD (JVal.num 0))).isSome) :
    recordPass (qDepDT q) (qArrDT q)
      (match qget q "price" with | some v => pyFloatJ v | none => none) q rec
      = Except.ok (specMatches q rec) := by
  unfold recordPass specMatches
  rw [stringMismatch_eq_not]
  by_cases h : ((match qget q "flight_id" with
      | some v => decide (rec.flight_id = some v)
      | none => true) &&
     (match qget q "origin" with
      | some v => decide (rec.origin = some v)
      | none => true) &&
     (match qget q "destination" with
      | some v => decide (rec.destination = some v)
      | none => true)) = true
  · rw [h]
    simp only [Bool.not_true, if_neg (by simp : ¬(false = true))]
    rw [depPass_spec q rec hqd hqa hqp hrd hra hrp]
    simp [h]
  · have h' : ((match qget q "flight_id" with
        | some v => decide (rec.flight_id = some v)
        | none => true) &&
       (match qget q "origin" with
        | some v => decide (rec.origin = some v)
        | none => true) &&
       (match qget q "destination" with
        | some v => decide (rec.destination = some v)
        | none => true)) = false := by
      simpa using h
    rw [h']
    simp only [Bool.not_false, if_pos rfl]
    simp [h']

lemma matchLoop_filter (q : List (String × JVal)) (db : List JRecord)
    (hqd : ∀ v, qget q "departure_datetime" = some v → (parseDTJ v).isSome)
    (hqa : ∀ v, qget q "arrival_datetime" = some v → (parseDTJ v).isSome)
    (hqp : ∀ v, qget q "price" = some v → (pyFloatJ v).isSome)
    (hrd : (qget q "departure_datetime").isSome → ∀ r ∈ db,
      ∃ jv dt, r.departure_datetime = some jv ∧ parseDTJ jv = some dt)
    (hra : (qget q "arrival_datetime").isSome → ∀ r ∈ db,
      ∃ jv dt, r.arrival_datetime = some jv ∧ parseDTJ jv = some dt)
    (hrp : (qget q "price").isSome → ∀ r ∈ db,
      (pyFloatJ (r.price.getD (JVal.num 0))).isSome) :
    matchLoop q (qDepDT q) (qArrDT q)
      (match qget q "price" with | some v => pyFloatJ v | none => none) db
      = Except.ok (db.filter fun r => specMatches q r) := by
  induction db with
  | nil => rfl
  | cons r rest ih =>
    have hr := recordPass_spec q r hqd hqa hqp
      (fun h => hrd h r (by simp)) (fun h => hra h r (by simp)) (fun h => hrp h r (by simp))
    have ht := ih (fun h r hm => hrd h r (by simp [hm])) (fun h r hm => hra h r (by simp [hm]))
      (fun h r hm => hrp h r (by simp [hm]))
    unfold matchLoop
    rw [hr, ht]
    by_cases hs : specMatches q r = true
    · simp [List.filter_cons, hs]
    · have hs' : specMatches q r = false := by simpa using hs
      simp [List.filter_cons, hs']

/-- The six query keys the matcher reads. -/
def recognizedKeys : List String :=
  ["flight_id", "origin", "destination", "departure_datetime", "arrival_datetime", "price"]

lemma qget_cons_ne {k key : String} (hk : ¬k = key) (v : JVal) (q : List (String × JVal)) :
    qget ((k, v) :: q) key = qget q key := by
  simp [qget, hk]

lemma match_query_cons_unrecognized (db : List JRecord) (k : String) (v : JVal)
    (q : List (String × JVal)) (hk : ¬k ∈ recognizedKeys) :
    match_query db ((k, v) :: q) = match_query db q := by
  have hk' : ¬(k = "flight_id") ∧ ¬(k = "origin") ∧ ¬(k = "destination") ∧
      ¬(k = "departure_datetime") ∧ ¬(k = "arrival_datetime") ∧ ¬(k = "price") := by
    simpa [recognizedKeys, not_or] using hk
  obtain ⟨n1, n2, n3, n4, n5, n6⟩ := hk'
  have h1 := qget_cons_ne n1 v q
  have h2 := qget_cons_ne n2 v q
  have h3 := qget_cons_ne n3 v q
  have h4 := qget_cons_ne n4 v q
  have h5 := qget_cons_ne n5 v q
  have h6 := qget_cons_ne n6 v q
  have hsm : ∀ rec, stringMismatch ((k, v) :: q) rec = stringMismatch q rec := by
    intro rec
    unfold stringMismatch
    rw [h1, h2, h3]
  have hpass : ∀ d a p rec, recordPass d a p ((k, v) :: q) rec = recordPass d a p q rec := by
    intro d a p rec
    unfold recordPass
    rw [hsm]
  have hml : ∀ d a p db2, matchLoop ((k, v) :: q) d a p db2 = matchLoop q d a p db2 := by
    intro d a p db2
    induction db2 with
    | nil => rfl
    | cons r rest ih =>
      unfold matchLoop
      rw [hpass, ih]
  have hd : qDepDT ((k, v) :: q) = qDepDT q := by
    unfold qDepDT
    rw [h4]
  have ha : qArrDT ((k, v) :: q) = qArrDT q := by
    unfold qArrDT
    rw [h5]
  unfold match_query
  rw [h6, hd, ha]
  cases qget q "price" with
  | none => rw [hml]
  | some pv =>
    dsimp only
    cases pyFloatJ pv with
    | none => rfl
    | some p =>
      dsimp only
      rw [hml]


lemma dropWhile_head_false (p : Char → Bool) (l : List Char) :
    ∀ c, (l.dropWhile p).head? = some c → p c = false := by
  induction l with
  | nil =>
    intro c h
    simp at h
  | cons a t ih =>
    intro c h
    rw [List.dropWhile_cons] at h
    split_ifs at h with ha
    · exact ih c h
    · simp at h
      rw [← h]
      simpa using ha

lemma dropWhile_eq_self_of_head (p : Char → Bool) (l : List Char)
    (hh : ∀ c, l.head? = some c → p c = false) : l.dropWhile p = l := by
  cases l with
  | nil => rfl
  | cons a t =>
    rw [List.dropWhile_cons, if_neg]
    simp [hh a rfl]

lemma stripL_of_ends (l : List Char)
    (hh : ∀ c, l.head? = some c → pySpace c = false)
    (hl : ∀ c, l.getLast? = some c → pySpace c = false) : stripL l = l := by
  unfold stripL
  rw [dropWhile_eq_self_of_head pySpace l hh]
  rw [dropWhile_eq_self_of_head pySpace l.reverse
    (fun c hc => hl c (by rwa [List.head?_reverse] at hc))]
  exact List.reverse_reverse l

lemma stripL_last (l : List Char) :
    ∀ c, (stripL l).getLast? = some c → pySpace c = false := by
  intro c hc
  unfold stripL at hc
  rw [List.getLast?_reverse] at hc
  exact dropWhile_head_false pySpace _ c hc

lemma stripL_head (l : List Char) :
    ∀ c, (stripL l).head? = some c → pySpace c = false := by
  intro c hc
  unfold stripL at hc
  have hBA : (l.dropWhile pySpace).reverse
      = (l.dropWhile pySpace).reverse.takeWhile pySpace
        ++ (l.dropWhile pySpace).reverse.dropWhile pySpace :=
    (List.takeWhile_append_dropWhile _ _).symm
  have hA : l.dropWhile pySpace
      = ((l.dropWhile pySpace).reverse.dropWhile pySpace).reverse
        ++ ((l.dropWhile pySpace).reverse.takeWhile pySpace).reverse := by
    calc l.dropWhile pySpace = (l.dropWhile pySpace).reverse.reverse :=
          (List.reverse_reverse _).symm
      _ = ((l.dropWhile pySpace).reverse.takeWhile pySpace
            ++ (l.dropWhile pySpace).reverse.dropWhile pySpace).reverse := by rw [← hBA]
      _ = ((l.dropWhile pySpace).reverse.dropWhile pySpace).reverse
            ++ ((l.dropWhile pySpace).reverse.takeWhile pySpace).reverse :=
          List.reverse_append _ _
  rcases hB : ((l.dropWhile pySpace).reverse.dropWhile pySpace).reverse with _ | ⟨b, t⟩
  · rw [hB] at hc
    simp at hc
  · rw [hB] at hc hA
    simp only [List.head?_cons, Option.some.injEq] at hc
    have hAh : (l.dropWhile pySpace).head? = some b := by
      rw [hA]
      simp
    have := dropWhile_head_false pySpace l b hAh
    rwa [hc] at this

lemma stripL_idem (l : List Char) : stripL (stripL l) = stripL l :=
  stripL_of_ends _ (stripL_head l) (stripL_last l)

lemma pyStrip_idem (s : String) : pyStrip (pyStrip s) = pyStrip s := by
  show (⟨stripL (stripL s.data)⟩ : String) = ⟨stripL s.data⟩
  rw [stripL_idem]

lemma pyStrip_of_ends (s : String)
    (hh : ∀ c, s.data.head? = some c → pySpace c = false)
    (hl : ∀ c, s.data.getLast? = some c → pySpace c = false) : pyStrip s = s := by
  show (⟨stripL s.data⟩ : String) = s
  rw [stripL_of_ends s.data hh hl]

/-- Decimal digits of `n`, most significant first (`fuel ≥ n` suffices). -/
def natToDecAux : Nat → Nat → List Char → List Char
  | 0, n, acc => digitCh n :: acc
  | fuel + 1, n, acc =>
    if n < 10 then digitCh n :: acc else natToDecAux fuel (n / 10) (digitCh n :: acc)

/-- Decimal digit characters of `n`, most significant first. -/
def natToDec (n : Nat) : List Char := natToDecAux n n []

lemma natToDecAux_append (fuel : Nat) : ∀ (n : Nat) (acc : List Char),
    natToDecAux fuel n acc = natToDecAux fuel n [] ++ acc := by
  induction fuel with
  | zero =>
    intro n acc
    rfl
  | succ fuel ih =>
    intro n acc
    by_cases h : n < 10
    · simp [natToDecAux, h]
    · simp only [natToDecAux, if_neg h]
      rw [ih (n / 10) (digitCh n :: acc), ih (n / 10) [digitCh n]]
      simp

lemma natToDec_all_digits (fuel : Nat) : ∀ (n : Nat), ∀ c ∈ natToDecAux fuel n [],
    isDigitCh c = true := by
  induction fuel with
  | zero =>
    intro n c hc
    simp [natToDecAux] at hc
    rw [hc]
    exact isDigitCh_digitCh n
  | succ fuel ih =>
    intro n c hc
    by_cases h : n < 10
    · simp [natToDecAux, h] at hc
      rw [hc]
      exact isDigitCh_digitCh n
    · simp only [natToDecAux, if_neg h] at hc
      rw [natToDecAux_append] at hc
      rcases List.mem_append.mp hc with h1 | h2
      · exact ih (n / 10) c h1
      · simp at h2
        rw [h2]
        exact isDigitCh_digitCh n

lemma natToDec_ne_nil (fuel n : Nat) : natToDecAux fuel n [] ≠ [] := by
  cases fuel with
  | zero => simp [natToDecAux]
  | succ fuel =>
    by_cases h : n < 10
    · simp [natToDecAux, h]
    · simp only [natToDecAux, if_neg h]
      rw [natToDecAux_append]
      simp

lemma natToDec_foldl (fuel : Nat) : ∀ (n : Nat), n ≤ fuel → ∀ (v : Nat),
    (natToDecAux fuel n []).foldl (fun a c => a * 10 + digitVal c) v
      = v * 10 ^ (natToDecAux fuel n []).length + n := by
  induction fuel with
  | zero =>
    intro n hn v
    have h0 : n = 0 := by omega
    subst h0
    simp [natToDecAux, digitVal_digitCh]
  | succ fuel ih =>
    intro n hn v
    by_cases h : n < 10
    · simp [natToDecAux, h, digitVal_digitCh]
    · simp only [natToDecAux, if_neg h]
      rw [natToDecAux_append]
      rw [List.foldl_append]
      rw [ih (n / 10) (by omega) v]
      simp only [List.foldl_cons, List.foldl_nil, List.length_append, List.length_cons,
        List.length_nil, digitVal_digitCh, Nat.zero_add]
      rw [pow_succ]
      have : v * (10 ^ (natToDecAux fuel (n / 10) []).length * 10)
          = v * 10 ^ (natToDecAux fuel (n / 10) []).length * 10 := by ring
      rw [this]
      omega

/-- Modelled from the spec: the canonical textual form of a stored price,
which is a rational with two decimal places (`NormalizedRecord.price` is
"stored rounded to 2 decimal places") — optional minus sign, the integer
part, `.`, and exactly two fractional digits.  The repository has no
renderer from a `NormalizedRecord` back to a row, so this rendering is the
spec's "canonical textual form" of each field. -/
def renderPriceL (x : ℚ) : List Char :=
  let n : Int := x.num * 100 / (x.den : ℤ)
  let a := n.natAbs
  (if n < 0 then ['-'] else []) ++ natToDec (a / 100) ++ '.' :: pad2 (a % 100)

/-- String form of `renderPriceL`. -/
def renderPrice (x : ℚ) : String := ⟨renderPriceL x⟩

lemma cents_int {x : ℚ} {k : ℤ} (hx : x = (k : ℚ) / 100) :
    x.num * 100 / (x.den : ℤ) = k := by
  have hden : ((x.den : ℚ)) ≠ 0 := by exact_mod_cast x.den_nz
  have hnum : (x.num : ℚ) = x * x.den := (div_eq_iff hden).mp (Rat.num_div_den x)
  have hM : ((x.num * 100 : ℤ) : ℚ) = ((k * (x.den : ℤ) : ℤ) : ℚ) := by
    push_cast
    rw [hnum, hx]
    ring
  have hMz : x.num * 100 = k * (x.den : ℤ) := by exact_mod_cast hM
  have hdz : ((x.den : ℤ)) ≠ 0 := by exact_mod_cast x.den_nz
  rw [hMz, Int.mul_ediv_cancel _ hdz]

lemma natToDec_digits (n : Nat) : ∀ c ∈ natToDec n, isDigitCh c = true :=
  natToDec_all_digits n n

lemma natToDec_nonempty (n : Nat) : natToDec n ≠ [] := natToDec_ne_nil n n

lemma natToDec_val (n : Nat) :
    (natToDec n).foldl (fun a c => a * 10 + digitVal c) 0 = n := by
  have h := natToDec_foldl n n le_rfl 0
  simpa using h

lemma pySpace_false_of_digit {c : Char} (h : isDigitCh c = true) : pySpace c = false := by
  simp only [isDigitCh, Bool.and_eq_true, decide_eq_true_eq] at h
  simp only [pySpace, Bool.or_eq_false_iff, decide_eq_false_iff_not, Bool.and_eq_false_iff]
  omega

lemma isDigitCh_ne_plus {c : Char} (h : isDigitCh c = true) : c ≠ '+' := by
  intro he
  rw [he] at h
  exact absurd h (by decide)

lemma isDigitCh_ne_minus {c : Char} (h : isDigitCh c = true) : c ≠ '-' := by
  intro he
  rw [he] at h
  exact absurd h (by decide)

lemma takeDigitsAux_digits (ds : List Char) :
    (∀ c ∈ ds, isDigitCh c = true) →
    ∀ (rest : List Char), (∀ c, rest.head? = some c → isDigitCh c = false) →
    ∀ (v m : Nat),
    takeDigitsAux v m (ds ++ rest)
      = (ds.foldl (fun a c => a * 10 + digitVal c) v, m + ds.length, rest) := by
  induction ds with
  | nil =>
    intro _ rest hr v m
    simp only [List.nil_append, List.foldl_nil, List.length_nil, Nat.add_zero]
    cases rest with
    | nil => rfl
    | cons c t =>
      have hc := hr c rfl
      simp [takeDigitsAux, hc]
  | cons d ds ih =>
    intro hds rest hr v m
    have hd : isDigitCh d = true := hds d (by simp)
    simp only [List.cons_append, takeDigitsAux, hd, if_true, List.append_eq]
    rw [ih (fun c hc => hds c (by simp [hc])) rest hr (v * 10 + digitVal d) (m + 1)]
    simp only [List.foldl_cons, List.length_cons]
    refine Prod.ext rfl (Prod.ext ?_ rfl)
    show m + 1 + ds.length = m + (ds.length + 1)
    omega

lemma takeDigits_digits (ds : List Char) (hds : ∀ c ∈ ds, isDigitCh c = true)
    (rest : List Char) (hr : ∀ c, rest.head? = some c → isDigitCh c = false) :
    takeDigits (ds ++ rest) = (ds.foldl (fun a c => a * 10 + digitVal c) 0, ds.length, rest) := by
  unfold takeDigits
  rw [takeDigitsAux_digits ds hds rest hr 0 0]
  simp

lemma pad2_digits (m : Nat) : ∀ c ∈ pad2 m, isDigitCh c = true := by
  intro c hc
  simp [pad2] at hc
  rcases hc with h | h <;> rw [h] <;> exact isDigitCh_digitCh _

lemma pad2_foldl (m : Nat) (hm : m ≤ 99) :
    (pad2 m).foldl (fun a c => a * 10 + digitVal c) 0 = m := by
  simp [pad2, digitVal_digitCh]
  omega

lemma renderPriceL_of_cents {x : ℚ} {k : ℤ} (hk : 0 ≤ k) (hx : x = (k : ℚ) / 100) :
    renderPriceL x = natToDec (k.natAbs / 100) ++ '.' :: pad2 (k.natAbs % 100) := by
  have hn : x.num * 100 / (x.den : ℤ) = k := cents_int hx
  unfold renderPriceL
  dsimp only
  rw [hn, if_neg (by omega : ¬(k < 0))]
  simp

lemma stripL_renderPriceL {x : ℚ} {k : ℤ} (hk : 0 ≤ k) (hx : x = (k : ℚ) / 100) :
    stripL (renderPriceL x) = renderPriceL x := by
  rw [renderPriceL_of_cents hk hx]
  apply stripL_of_ends
  · intro c hc
    rcases hnd : natToDec (k.natAbs / 100) with _ | ⟨d, t⟩
    · exact absurd hnd (natToDec_nonempty _)
    · rw [hnd] at hc
      simp only [List.cons_append, List.head?_cons, Option.some.injEq] at hc
      have hdig : isDigitCh d = true := natToDec_digits _ d (by rw [hnd]; simp)
      rw [← hc]
      exact pySpace_false_of_digit hdig
  · intro c hc
    have hlast : (natToDec (k.natAbs / 100) ++ '.' :: pad2 (k.natAbs % 100)).getLast?
        = some (digitCh (k.natAbs % 100)) := by
      rw [show natToDec (k.natAbs / 100) ++ '.' :: pad2 (k.natAbs % 100)
          = (natToDec (k.natAbs / 100) ++ ['.', digitCh (k.natAbs % 100 / 10)])
            ++ [digitCh (k.natAbs % 100)] by simp [pad2]]
      exact List.getLast?_concat _
    rw [hlast] at hc
    simp only [Option.some.injEq] at hc
    rw [← hc]
    exact pySpace_digitCh _

lemma renderPrice_strip {x : ℚ} {k : ℤ} (hk : 0 ≤ k) (hx : x = (k : ℚ) / 100) :
    pyStrip (renderPrice x) = renderPrice x := by
  show (⟨stripL (renderPrice x).data⟩ : String) = renderPrice x
  rw [show (renderPrice x).data = renderPriceL x from rfl, stripL_renderPriceL hk hx]
  rfl

lemma renderPrice_ne_empty {x : ℚ} {k : ℤ} (hk : 0 ≤ k) (hx : x = (k : ℚ) / 100) :
    renderPrice x ≠ "" := by
  intro hc
  have hd : renderPriceL x = [] := congrArg String.data hc
  rw [renderPriceL_of_cents hk hx] at hd
  rcases hnd : natToDec (k.natAbs / 100) with _ | ⟨d, t⟩
  · exact natToDec_nonempty _ hnd
  · rw [hnd] at hd
    simp at hd

/-- Re-parsing the canonical price rendering recovers the stored rational
exactly (nonnegative two-decimal values, which is all the validator
stores). -/
theorem pyFloat_renderPrice {x : ℚ} {k : ℤ} (hk : 0 ≤ k) (hx : x = (k : ℚ) / 100) :
    pyFloat (renderPrice x) = some x := by
  have hrl := renderPriceL_of_cents hk hx
  have hstrip := stripL_renderPriceL hk hx
  have hsign : pySign (natToDec (k.natAbs / 100) ++ '.' :: pad2 (k.natAbs % 100))
      = (false, natToDec (k.natAbs / 100) ++ '.' :: pad2 (k.natAbs % 100)) := by
    rcases hnd : natToDec (k.natAbs / 100) with _ | ⟨d, t⟩
    · exact absurd hnd (natToDec_nonempty _)
    · have hdig : isDigitCh d = true := natToDec_digits _ d (by rw [hnd]; simp)
      simp [pySign, isDigitCh_ne_plus hdig, isDigitCh_ne_minus hdig]
  have htake : takeDigits (natToDec (k.natAbs / 100) ++ '.' :: pad2 (k.natAbs % 100))
      = (k.natAbs / 100, (natToDec (k.natAbs / 100)).length,
         '.' :: pad2 (k.natAbs % 100)) := by
    rw [takeDigits_digits (natToDec (k.natAbs / 100)) (natToDec_digits _)
      ('.' :: pad2 (k.natAbs % 100))
      (by
        intro c hc
        simp only [List.head?_cons, Option.some.injEq] at hc
        rw [← hc]
        decide)]
    rw [natToDec_val]
  have hfrac : pyFrac ('.' :: pad2 (k.natAbs % 100)) = (k.natAbs % 100, 2, []) := by
    show (if ('.' : Char) = '.' then takeDigits (pad2 (k.natAbs % 100))
      else (0, 0, '.' :: pad2 (k.natAbs % 100))) = (k.natAbs % 100, 2, [])
    rw [if_pos rfl]
    rw [show pad2 (k.natAbs % 100) = pad2 (k.natAbs % 100) ++ [] by simp]
    rw [takeDigits_digits (pad2 (k.natAbs % 100)) (pad2_digits _) []
      (by intro c hc; simp at hc)]
    rw [pad2_foldl _ (by omega)]
    rfl
  show pyFloat (renderPrice x) = some x
  unfold pyFloat
  rw [show (renderPrice x).data = renderPriceL x from rfl]
  rw [hstrip, hrl]
  dsimp only
  rw [hsign]
  dsimp only
  rw [htake]
  dsimp only
  rw [hfrac]
  dsimp only
  rw [if_neg (by
    intro hc
    have := natToDec_nonempty (k.natAbs / 100)
    rcases hq : natToDec (k.natAbs / 100) with _ | ⟨d, t⟩
    · exact this hq
    · rw [hq] at hc
      simp at hc)]
  unfold floatVal
  dsimp only
  rw [if_neg (by simp : ¬(false = true)), if_pos (by omega : ((0 : Int) ≤ 0))]
  have hm : ((k.natAbs / 100 : ℕ) : ℤ) * 10 ^ 2 + ((k.natAbs % 100 : ℕ) : ℤ) = k := by
    have h1 : k.natAbs / 100 * 100 + k.natAbs % 100 = k.natAbs := by omega
    calc ((k.natAbs / 100 : ℕ) : ℤ) * 10 ^ 2 + ((k.natAbs % 100 : ℕ) : ℤ)
        = ((k.natAbs / 100 * 100 + k.natAbs % 100 : ℕ) : ℤ) := by push_cast; ring
      _ = ((k.natAbs : ℕ) : ℤ) := by rw [h1]
      _ = k := Int.natAbs_of_nonneg hk
  rw [hm]
  rw [show ((0 : Int).toNat) = 0 from rfl, pow_zero, mul_one]
  rw [show ((10 : ℕ) ^ 2) = 100 from rfl]
  rw [Rat.mkRat_eq_div, hx]
  norm_num


lemma vrDT_some {s : String} {dt : DateTime} (h : vrDT s = some dt) :
    s ≠ "" ∧ parse_datetime s = some dt := by
  unfold vrDT at h
  by_cases hs : s = ""
  · rw [if_pos hs] at h
    exact Option.noConfusion h
  · rw [if_neg hs] at h
    exact ⟨hs, h⟩

lemma renderDT_head (dt : DateTime) :
    (renderDT dt).data.head? = some (digitCh (dt.year / 1000)) := by
  show (renderDTL dt).head? = _
  simp [renderDTL, pad4]

lemma renderDT_last (dt : DateTime) :
    (renderDT dt).data.getLast? = some (digitCh dt.minute) := by
  show (renderDTL dt).getLast? = _
  simp [renderDTL, pad4, pad2, List.getLast?_append]

lemma renderDT_ne_empty (dt : DateTime) : renderDT dt ≠ "" := by
  intro hc
  have h2 := renderDT_head dt
  rw [hc] at h2
  simp at h2

lemma renderDT_strip (dt : DateTime) : pyStrip (renderDT dt) = renderDT dt :=
  pyStrip_of_ends _
    (fun c hc => by
      rw [renderDT_head] at hc
      simp only [Option.some.injEq] at hc
      rw [← hc]
      exact pySpace_digitCh _)
    (fun c hc => by
      rw [renderDT_last] at hc
      simp only [Option.some.injEq] at hc
      rw [← hc]
      exact pySpace_digitCh _)

/-- Modelled from the spec: the repository has no renderer from a
`NormalizedRecord` back to a row, so "the canonical rendering of a
NormalizedRecord" is taken as the spec states it — the six fields in
canonical textual form (the identifiers and timestamps are already stored
canonically; the two-decimal price is rendered by `renderPrice`). -/
def render (r : NRecord) : List String :=
  [r.flight_id, r.origin, r.destination, r.departure_datetime, r.arrival_datetime,
    renderPrice r.price]

/-- Re-validating the canonical rendering of a produced record succeeds and
reproduces the record exactly, provided the stored rounded price is
strictly positive. -/
theorem revalidate_render {cells : List String} {r : NRecord}
    (h : (validate_row cells).2.1 = some r) (hp : 0 < r.price) :
    validate_row (render r) = (true, some r, []) := by
  obtain ⟨dd, ad, p, hlen, he, hdd, had, hpy, hpp, hr, hvr⟩ := validate_row_record h
  obtain ⟨hf0, hre, hf1, hra1, hf2, hra2, hf3, ⟨dd0, hdd0⟩, hf4, ⟨ad0, had0⟩,
    hord, hf5, p0, hp0, hp0pos⟩ := vrErrors_nil_facts he
  have hvdd : validDT dd := parse_datetime_valid (vrDT_some hdd).2
  have hvad : validDT ad := parse_datetime_valid (vrDT_some had).2
  have hkpos : (0 : ℤ) ≤ rhe2 p := rhe2_nonneg hpp
  have hcents : pyRound2 p = ((rhe2 p : ℤ) : ℚ) / 100 := pyRound2_eq_div p
  subst hr
  have hpq : 0 < pyRound2 p := hp
  have hv0 : vrField (render ⟨vrField cells 0, vrField cells 1, vrField cells 2,
      renderDT dd, renderDT ad, pyRound2 p⟩) 0 = vrField cells 0 := pyStrip_idem _
  have hv1 : vrField (render ⟨vrField cells 0, vrField cells 1, vrField cells 2,
      renderDT dd, renderDT ad, pyRound2 p⟩) 1 = vrField cells 1 := pyStrip_idem _
  have hv2 : vrField (render ⟨vrField cells 0, vrField cells 1, vrField cells 2,
      renderDT dd, renderDT ad, pyRound2 p⟩) 2 = vrField cells 2 := pyStrip_idem _
  have hv3 : vrField (render ⟨vrField cells 0, vrField cells 1, vrField cells 2,
      renderDT dd, renderDT ad, pyRound2 p⟩) 3 = renderDT dd := renderDT_strip dd
  have hv4 : vrField (render ⟨vrField cells 0, vrField cells 1, vrField cells 2,
      renderDT dd, renderDT ad, pyRound2 p⟩) 4 = renderDT ad := renderDT_strip ad
  have hv5 : vrField (render ⟨vrField cells 0, vrField cells 1, vrField cells 2,
      renderDT dd, renderDT ad, pyRound2 p⟩) 5 = renderPrice (pyRound2 p) :=
    renderPrice_strip hkpos hcents
  have hdt3 : vrDT (renderDT dd) = some dd := by
    unfold vrDT
    rw [if_neg (renderDT_ne_empty dd)]
    exact parse_renderDT dd hvdd
  have hdt4 : vrDT (renderDT ad) = some ad := by
    unfold vrDT
    rw [if_neg (renderDT_ne_empty ad)]
    exact parse_renderDT ad hvad
  have hpf5 : pyFloat (renderPrice (pyRound2 p)) = some (pyRound2 p) :=
    pyFloat_renderPrice hkpos hcents
  have hvp5 : vrPrice (renderPrice (pyRound2 p)) = some (pyRound2 p) := by
    unfold vrPrice
    rw [if_neg (renderPrice_ne_empty hkpos hcents)]
    exact hpf5
  have hordf : dtLe ad dd = false := hord dd ad hdd had
  have herr : vrErrors (render ⟨vrField cells 0, vrField cells 1, vrField cells 2,
      renderDT dd, renderDT ad, pyRound2 p⟩) = [] := by
    unfold vrErrors
    dsimp only
    rw [hv0, hv1, hv2, hv3, hv4, hv5, hdt3, hdt4, hpf5]
    dsimp only
    simp [hf0, hf1, hf2, hre, hra1, hra2, renderDT_ne_empty,
      renderPrice_ne_empty hkpos hcents, hordf, not_le.mpr hpq]
  have hlen6 : ¬(render ⟨vrField cells 0, vrField cells 1, vrField cells 2,
      renderDT dd, renderDT ad, pyRound2 p⟩).length < 6 := by
    simp [render]
  have hb := validate_row_build hlen6 herr (by rw [hv3]; exact hdt3)
    (by rw [hv4]; exact hdt4) (by rw [hv5]; exact hvp5)
  rw [hb, hv0, hv1, hv2, pyRound2_idem]

/-- Modelled from the spec: the fixed sequence of field-level checks —
presence for all six fields, then identifier format, then origin and
destination format, then parseability of both timestamps, the cross-field
ordering check (evaluated only when both timestamps parsed), and finally
price format/positivity.  Each entry is `some reason` exactly when the
check applies to the row. -/
def specChecks (cells : List String) : List (Option String) :=
  [if vrField cells 0 = "" then some "missing flight_id" else none,
   if vrField cells 1 = "" then some "missing origin field" else none,
   if vrField cells 2 = "" then some "missing destination field" else none,
   if vrField cells 3 = "" then some "missing departure_datetime" else none,
   if vrField cells 4 = "" then some "missing arrival_datetime" else none,
   if vrField cells 5 = "" then some "missing price" else none,
   if vrField cells 0 ≠ "" ∧ ¬RE_FLIGHT_ID (vrField cells 0) then
     some (if (vrField cells 0).data.length < 2 ∨ 8 < (vrField cells 0).data.length then
       "flight_id length must be 2-8 alphanumeric characters"
     else "invalid flight_id format")
   else none,
   if vrField cells 1 ≠ "" ∧ ¬RE_AIRPORT (vrField cells 1) then some "invalid origin code"
   else none,
   if vrField cells 2 ≠ "" ∧ ¬RE_AIRPORT (vrField cells 2) then
     some "invalid destination code" else none,
   if vrField cells 3 ≠ "" ∧ vrDT (vrField cells 3) = none then
     some "invalid departure datetime" else none,
   if vrField cells 4 ≠ "" ∧ vrDT (vrField cells 4) = none then
     some "invalid arrival datetime" else none,
   (match vrDT (vrField cells 3), vrDT (vrField cells 4) with
    | some dd, some ad =>
      if dtLe ad dd then some "arrival before or equal to departure" else none
    | _, _ => none),
   (if vrField cells 5 = "" then none
    else
      match pyFloat (vrField cells 5) with
      | none => some "invalid price format"
      | some p => if p ≤ 0 then some "negative or zero price value" else none)]

/-- Modelled from the spec: every check of `specChecks` runs (no per-field
short-circuiting); the applicable reasons are accumulated in that fixed
order. -/
def specReasons (cells : List String) : List String :=
  (specChecks cells).foldr (fun o acc => o.toList ++ acc) []

lemma toList_ite {P : Prop} [Decidable P] (m : String) :
    (if P then some m else none : Option String).toList = if P then [m] else [] := by
  split_ifs <;> rfl

lemma singleton_ite {P : Prop} [Decidable P] (a b : String) :
    (if P then [a] else [b] : List String) = [if P then a else b] := by
  split_ifs <;> rfl

lemma ordBlock_toList (o1 o2 : Option DateTime) :
    (match o1, o2 with
     | some dd, some ad =>
       if dtLe ad dd then some "arrival before or equal to departure" else none
     | _, _ => (none : Option String)).toList =
    (match o1, o2 with
     | some dd, some ad =>
       if dtLe ad dd then ["arrival before or equal to departure"] else []
     | _, _ => ([] : List String)) := by
  cases o1 <;> cases o2 <;> simp only [Option.toList] <;> try rfl
  split_ifs <;> rfl

lemma priceBlock_toList (s : String) :
    (if s = "" then none
     else
       match pyFloat s with
       | none => some "invalid price format"
       | some p =>
         if p ≤ 0 then some "negative or zero price value" else none : Option String).toList =
    (if s = "" then []
     else
       match pyFloat s with
       | none => ["invalid price format"]
       | some p => if p ≤ 0 then ["negative or zero price value"] else []) := by
  by_cases hs : s = ""
  · rw [if_pos hs, if_pos hs]
    rfl
  · rw [if_neg hs, if_neg hs]
    cases pyFloat s with
    | none => rfl
    | some p => exact toList_ite _

theorem vrErrors_eq_specReasons (cells : List String) :
    vrErrors cells = specReasons cells := by
  unfold vrErrors specReasons specChecks
  dsimp only [List.foldr]
  rw [ordBlock_toList, priceBlock_toList]
  simp only [toList_ite, singleton_ite, List.append_nil, List.append_assoc]

lemma vrDT_eq_parse (s : String) : vrDT s = parse_datetime s := by
  unfold vrDT
  split_ifs with h
  · subst h
    decide
  · rfl

lemma matchLoop_congr (q1 q2 : List (String × JVal)) (d a : Option DateTime) (p : Option ℚ)
    (hsm : ∀ rec, stringMismatch q1 rec = stringMismatch q2 rec) :
    ∀ db, matchLoop q1 d a p db = matchLoop q2 d a p db := by
  intro db
  induction db with
  | nil => rfl
  | cons r rest ih =>
    unfold matchLoop
    rw [show recordPass d a p q1 r = recordPass d a p q2 r by unfold recordPass; rw [hsm], ih]

lemma foldl_qget_filter {k key : String} (hne : ¬k = key) (q : List (String × JVal)) :
    ∀ acc, ((q.filter fun p => p.1 ≠ k).foldl
        (fun acc p => if p.1 = key then some p.2 else acc) acc)
      = q.foldl (fun acc p => if p.1 = key then some p.2 else acc) acc := by
  induction q with
  | nil => intro acc; rfl
  | cons a t ih =>
    intro acc
    by_cases ha : a.1 = k
    · rw [List.filter_cons_of_neg (by simp [ha]), List.foldl_cons,
        if_neg (by rw [ha]; exact hne)]
      exact ih acc
    · rw [List.filter_cons_of_pos (by simp [ha]), List.foldl_cons, List.foldl_cons]
      exact ih _

lemma qget_filter_ne {k key : String} (hne : ¬k = key) (q : List (String × JVal)) :
    qget (q.filter fun p => p.1 ≠ k) key = qget q key :=
  foldl_qget_filter hne q none

lemma foldl_qget_none {k : String} (l : List (String × JVal))
    (hl : ∀ p ∈ l, ¬p.1 = k) :
    l.foldl (fun acc p => if p.1 = k then some p.2 else acc) none = none := by
  induction l with
  | nil => rfl
  | cons a t ih =>
    rw [List.foldl_cons, if_neg (hl a (List.mem_cons_self a t))]
    exact ih fun p hp => hl p (List.mem_cons_of_mem a hp)

lemma qget_filter_self (k : String) (q : List (String × JVal)) :
    qget (q.filter fun p => p.1 ≠ k) k = none := by
  unfold qget
  apply foldl_qget_none
  intro p hp
  have := (List.mem_filter.mp hp).2
  simpa using this

lemma qDepDT_none_of {q : List (String × JVal)} {v : JVal}
    (hv : qget q "departure_datetime" = some v) (hn : parseDTJ v = none) :
    qDepDT q = none := by
  unfold qDepDT
  rw [hv]
  dsimp only
  split_ifs <;> simp [hn]

lemma qArrDT_none_of {q : List (String × JVal)} {v : JVal}
    (hv : qget q "arrival_datetime" = some v) (hn : parseDTJ v = none) :
    qArrDT q = none := by
  unfold qArrDT
  rw [hv]
  dsimp only
  split_ifs <;> simp [hn]

lemma match_query_erase_dep (db : List JRecord) (q : List (String × JVal))
    (hnone : qDepDT q = none) :
    match_query db q = match_query db (q.filter fun p => p.1 ≠ "departure_datetime") := by
  have h1 : qget (q.filter fun p => p.1 ≠ "departure_datetime") "flight_id"
      = qget q "flight_id" := qget_filter_ne (by decide) q
  have h2 : qget (q.filter fun p => p.1 ≠ "departure_datetime") "origin"
      = qget q "origin" := qget_filter_ne (by decide) q
  have h3 : qget (q.filter fun p => p.1 ≠ "departure_datetime") "destination"
      = qget q "destination" := qget_filter_ne (by decide) q
  have h5 : qget (q.filter fun p => p.1 ≠ "departure_datetime") "arrival_datetime"
      = qget q "arrival_datetime" := qget_filter_ne (by decide) q
  have h6 : qget (q.filter fun p => p.1 ≠ "departure_datetime") "price"
      = qget q "price" := qget_filter_ne (by decide) q
  have hd' : qDepDT (q.filter fun p => p.1 ≠ "departure_datetime") = none := by
    unfold qDepDT
    rw [qget_filter_self]
  have ha : qArrDT (q.filter fun p => p.1 ≠ "departure_datetime") = qArrDT q := by
    unfold qArrDT
    rw [h5]
  have hsm : ∀ rec, stringMismatch q rec
      = stringMismatch (q.filter fun p => p.1 ≠ "departure_datetime") rec := by
    intro rec
    unfold stringMismatch
    rw [h1, h2, h3]
  unfold match_query
  rw [h6, ha, hd', hnone]
  cases qget q "price" with
  | none => exact matchLoop_congr _ _ _ _ _ hsm db
  | some v =>
    dsimp only
    cases pyFloatJ v with
    | none => rfl
    | some p =>
      dsimp only
      exact matchLoop_congr _ _ _ _ _ hsm db

lemma match_query_erase_arr (db : List JRecord) (q : List (String × JVal))
    (hnone : qArrDT q = none) :
    match_query db q = match_query db (q.filter fun p => p.1 ≠ "arrival_datetime") := by
  have h1 : qget (q.filter fun p => p.1 ≠ "arrival_datetime") "flight_id"
      = qget q "flight_id" := qget_filter_ne (by decide) q
  have h2 : qget (q.filter fun p => p.1 ≠ "arrival_datetime") "origin"
      = qget q "origin" := qget_filter_ne (by decide) q
  have h3 : qget (q.filter fun p => p.1 ≠ "arrival_datetime") "destination"
      = qget q "destination" := qget_filter_ne (by decide) q
  have h4 : qget (q.filter fun p => p.1 ≠ "arrival_datetime") "departure_datetime"
      = qget q "departure_datetime" := qget_filter_ne (by decide) q
  have h6 : qget (q.filter fun p => p.1 ≠ "arrival_datetime") "price"
      = qget q "price" := qget_filter_ne (by decide) q
  have ha' : qArrDT (q.filter fun p => p.1 ≠ "arrival_datetime") = none := by
    unfold qArrDT
    rw [qget_filter_self]
  have hd : qDepDT (q.filter fun p => p.1 ≠ "arrival_datetime") = qDepDT q := by
    unfold qDepDT
    rw [h4]
  have hsm : ∀ rec, stringMismatch q rec
      = stringMismatch (q.filter fun p => p.1 ≠ "arrival_datetime") rec := by
    intro rec
    unfold stringMismatch
    rw [h1, h2, h3]
  unfold match_query
  rw [h6, hd, ha', hnone]
  cases qget q "price" with
  | none => exact matchLoop_congr _ _ _ _ _ hsm db
  | some v =>
    dsimp only
    cases pyFloatJ v with
    | none => rfl
    | some p =>
      dsimp only
      exact matchLoop_congr _ _ _ _ _ hsm db

lemma match_query_price_error {db : List JRecord} {q : List (String × JVal)} {v : JVal}
    (hv : qget q "price" = some v) (hn : pyFloatJ v = none) :
    match_query db q = Except.error "ValueError: could not convert string to float" := by
  unfold match_query
  rw [hv]
  dsimp only
  rw [hn]

lemma match_query_filter (db : List JRecord) (q : List (String × JVal))
    (hqd : ∀ v, qget q "departure_datetime" = some v → (parseDTJ v).isSome)
    (hqa : ∀ v, qget q "arrival_datetime" = some v → (parseDTJ v).isSome)
    (hqp : ∀ v, qget q "price" = some v → (pyFloatJ v).isSome)
    (hrd : (qget q "departure_datetime").isSome → ∀ r ∈ db,
      ∃ jv dt, r.departure_datetime = some jv ∧ parseDTJ jv = some dt)
    (hra : (qget q "arrival_datetime").isSome → ∀ r ∈ db,
      ∃ jv dt, r.arrival_datetime = some jv ∧ parseDTJ jv = some dt)
    (hrp : (qget q "price").isSome → ∀ r ∈ db,
      (pyFloatJ (r.price.getD (JVal.num 0))).isSome) :
    match_query db q = Except.ok (db.filter fun r => specMatches q r) := by
  have hm := matchLoop_filter q db hqd hqa hqp hrd hra hrp
  unfold match_query
  cases hq : qget q "price" with
  | none =>
    rw [hq] at hm
    exact hm
  | some v =>
    obtain ⟨p, hp⟩ := Option.isSome_iff_exists.mp (hqp v hq)
    rw [hq] at hm
    dsimp only at hm
    rw [hp] at hm
    dsimp only
    rw [hp]
    exact hm

/-- C2: Corrected.  Every accepted row has a strictly positive *parsed*
price, and the stored price is that value rounded half-to-even to two
decimal places — but the rounding can collapse a small positive price to
`0`, so the stored price is only guaranteed non-negative, not strictly
positive. -/
theorem claim_C2 {cells : List String} {r : NRecord}
    (h : (validate_row cells).2.1 = some r) :
    0 ≤ r.price ∧ ∃ p, pyFloat (vrField cells 5) = some p ∧ 0 < p
      ∧ r.price = pyRound2 p := by
  obtain ⟨dd, ad, p, hlen, he, hdd, had, hpy, hpp, hr, hvr⟩ := validate_row_record h
  refine ⟨?_, p, hpy, hpp, ?_⟩
  · rw [hr]
    exact pyRound2_nonneg hpp
  · rw [hr]

theorem claim_C2_witness :
    0 ≤ (NRecord.mk "AB12" "JFK" "LAX" "2024-01-01 08:00" "2024-01-01 14:30"
        (mkRat 201 2)).price
    ∧ ∃ p, pyFloat (vrField ["AB12", "JFK", "LAX", "2024-01-01 08:00",
        "2024-01-01 14:30", "100.50"] 5) = some p ∧ 0 < p
      ∧ (NRecord.mk "AB12" "JFK" "LAX" "2024-01-01 08:00" "2024-01-01 14:30"
          (mkRat 201 2)).price = pyRound2 p :=
  claim_C2 (by decide)

theorem claim_C2_counterexample :
    (validate_row ["AB12", "JFK", "LAX", "2024-01-01 08:00", "2024-01-01 14:30",
        "0.001"]).2.1
      = some (NRecord.mk "AB12" "JFK" "LAX" "2024-01-01 08:00" "2024-01-01 14:30" 0)
    ∧ ¬(0 < (NRecord.mk "AB12" "JFK" "LAX" "2024-01-01 08:00" "2024-01-01 14:30"
        0).price) := by
  constructor <;> decide

/-- C3: Corrected.  validate → render → re-validate reproduces the record
exactly for every accepted row whose *stored* rounded price is strictly
positive; when the rounding collapses the price to `0`, re-validation
rejects the rendered row with the positivity reason. -/
theorem claim_C3 {cells : List String} {r : NRecord}
    (h : (validate_row cells).2.1 = some r) (hp : 0 < r.price) :
    validate_row (render r) = (true, some r, []) :=
  revalidate_render h hp

theorem claim_C3_witness :
    validate_row (render (NRecord.mk "AB12" "JFK" "LAX" "2024-01-01 08:00"
        "2024-01-01 14:30" (mkRat 21 2)))
      = (true, some (NRecord.mk "AB12" "JFK" "LAX" "2024-01-01 08:00"
          "2024-01-01 14:30" (mkRat 21 2)), []) :=
  @claim_C3 ["AB12", "JFK", "LAX", "2024-01-01 08:00", "2024-01-01 14:30", "10.50"]
    (NRecord.mk "AB12" "JFK" "LAX" "2024-01-01 08:00" "2024-01-01 14:30" (mkRat 21 2))
    (by decide) (by decide)

theorem claim_C3_counterexample :
    (validate_row ["AB12", "JFK", "LAX", "2024-01-01 08:00", "2024-01-01 14:30",
        "0.004"]).2.1
      = some (NRecord.mk "AB12" "JFK" "LAX" "2024-01-01 08:00" "2024-01-01 14:30" 0)
    ∧ validate_row (render (NRecord.mk "AB12" "JFK" "LAX" "2024-01-01 08:00"
        "2024-01-01 14:30" 0))
      ≠ (true, some (NRecord.mk "AB12" "JFK" "LAX" "2024-01-01 08:00"
          "2024-01-01 14:30" 0), []) := by
  constructor <;> decide

/-- C5: Confirmed.  Any row with fewer than six cells fails validation with
exactly the single missing-required-fields reason, no record, and no
field-level reason, regardless of the cells' content. -/
theorem claim_C5 {cells : List String} (h : cells.length < 6) :
    validate_row cells = (false, none, ["missing required fields"]) :=
  validate_row_short h

theorem claim_C5_witness :
    validate_row ["", "###", "not a field at all"]
      = (false, none, ["missing required fields"]) :=
  claim_C5 (by decide)

/-- C8: Confirmed.  For every row with at least six cells the accumulated
reason list equals `specReasons`: every check of the spec's fixed sequence
runs, and the applicable reasons appear in exactly that order with no
per-field short-circuiting. -/
theorem claim_C8 (cells : List String) (h6 : ¬cells.length < 6) :
    (validate_row cells).2.2 = specReasons cells := by
  rw [validate_row_errors h6]
  exact vrErrors_eq_specReasons cells

theorem claim_C8_witness :
    (validate_row ["A", "jfk", "LAX", "2024-01-01 08:00", "2024-01-01 06:00",
        "50"]).2.2
      = specReasons ["A", "jfk", "LAX", "2024-01-01 08:00", "2024-01-01 06:00", "50"] :=
  claim_C8 ["A", "jfk", "LAX", "2024-01-01 08:00", "2024-01-01 06:00", "50"] (by decide)

/-- C10: Confirmed.  When a dataset record lacks a `price` field, the
matcher evaluates `float(rec.get("price", 0))` to `0`, so the record
satisfies every price-ceiling constraint with a non-negative query
price. -/
theorem claim_C10 (r : JRecord) (p : ℚ) (hr : r.price = none) (hp : 0 ≤ p) :
    pyFloatJ (r.price.getD (JVal.num 0)) = some 0
    ∧ match_query [r] [("price", JVal.num p)] = Except.ok [r] := by
  have hpp : pricePass (some p) r = Except.ok true := by
    unfold pricePass
    rw [hr]
    dsimp only [Option.getD, pyFloatJ]
    rw [if_neg (not_lt.mpr hp)]
  have hrp : recordPass none none (some p) [("price", JVal.num p)] r
      = Except.ok true := by
    unfold recordPass
    rw [show stringMismatch [("price", JVal.num p)] r = false from rfl]
    simp only [Bool.false_eq_true, if_false]
    exact hpp
  have hml : matchLoop [("price", JVal.num p)] none none (some p) [r]
      = Except.ok [r] := by
    unfold matchLoop
    rw [hrp]
    rfl
  constructor
  · rw [hr]
    rfl
  · show matchLoop [("price", JVal.num p)] none none (some p) [r] = Except.ok [r]
    exact hml

theorem claim_C10_witness :
    pyFloatJ ((({} : JRecord).price).getD (JVal.num 0)) = some 0
    ∧ match_query [({} : JRecord)] [("price", JVal.num 5)]
      = Except.ok [({} : JRecord)] :=
  claim_C10 {} 5 rfl (by decide)

/-- C1: Corrected.  An unparseable `price` constraint in a query propagates
a query-level error, but an unparseable `departure_datetime` or
`arrival_datetime` constraint is caught inside `parse_datetime` and
silently dropped: matching proceeds exactly as if that constraint were
absent from the query. -/
theorem claim_C1 (db : List JRecord) (q : List (String × JVal)) (v : JVal) :
    (qget q "price" = some v → pyFloatJ v = none →
      match_query db q = Except.error "ValueError: could not convert string to float")
    ∧ (qget q "departure_datetime" = some v → parseDTJ v = none →
      match_query db q = match_query db (q.filter fun p => p.1 ≠ "departure_datetime"))
    ∧ (qget q "arrival_datetime" = some v → parseDTJ v = none →
      match_query db q = match_query db (q.filter fun p => p.1 ≠ "arrival_datetime")) :=
  ⟨fun hv hn => match_query_price_error hv hn,
   fun hv hn => match_query_erase_dep db q (qDepDT_none_of hv hn),
   fun hv hn => match_query_erase_arr db q (qArrDT_none_of hv hn)⟩

theorem claim_C1_witness :
    match_query [({} : JRecord)] [("price", JVal.str "garbage")]
      = Except.error "ValueError: could not convert string to float"
    ∧ match_query [({} : JRecord)] [("departure_datetime", JVal.str "garbage")]
      = match_query [({} : JRecord)]
          ([("departure_datetime", JVal.str "garbage")].filter
            fun p => p.1 ≠ "departure_datetime")
    ∧ match_query [({} : JRecord)] [("arrival_datetime", JVal.str "garbage")]
      = match_query [({} : JRecord)]
          ([("arrival_datetime", JVal.str "garbage")].filter
            fun p => p.1 ≠ "arrival_datetime") :=
  ⟨(claim_C1 [{}] [("price", JVal.str "garbage")] (JVal.str "garbage")).1
      (by decide) (by decide),
   (claim_C1 [{}] [("departure_datetime", JVal.str "garbage")]
      (JVal.str "garbage")).2.1 (by decide) (by decide),
   (claim_C1 [{}] [("arrival_datetime", JVal.str "garbage")]
      (JVal.str "garbage")).2.2 (by decide) (by decide)⟩

theorem claim_C1_counterexample :
    parse_datetime "garbage" = none
    ∧ match_query [({} : JRecord)] [("departure_datetime", JVal.str "garbage")]
      = Except.ok [({} : JRecord)] := by
  constructor <;> decide

/-- C4: Confirmed.  Whenever every datetime/price constraint present in the
query parses and the dataset's corresponding fields parse, the result is
exactly the dataset filtered by the spec's matching predicate, in dataset
order without deduplication; an empty query matches every record, and an
unrecognized query key imposes no constraint. -/
theorem claim_C4 (db : List JRecord) (q : List (String × JVal))
    (hqd : ∀ v, qget q "departure_datetime" = some v → (parseDTJ v).isSome)
    (hqa : ∀ v, qget q "arrival_datetime" = some v → (parseDTJ v).isSome)
    (hqp : ∀ v, qget q "price" = some v → (pyFloatJ v).isSome)
    (hrd : (qget q "departure_datetime").isSome → ∀ r ∈ db,
      ∃ jv dt, r.departure_datetime = some jv ∧ parseDTJ jv = some dt)
    (hra : (qget q "arrival_datetime").isSome → ∀ r ∈ db,
      ∃ jv dt, r.arrival_datetime = some jv ∧ parseDTJ jv = some dt)
    (hrp : (qget q "price").isSome → ∀ r ∈ db,
      (pyFloatJ (r.price.getD (JVal.num 0))).isSome) :
    match_query db q = Except.ok (db.filter fun r => specMatches q r)
    ∧ match_query db [] = Except.ok db
    ∧ ∀ k v, k ∉ recognizedKeys → match_query db ((k, v) :: q) = match_query db q := by
  refine ⟨match_query_filter db q hqd hqa hqp hrd hra hrp, ?_,
    fun k v hk => match_query_cons_unrecognized db k v q hk⟩
  have h := match_query_filter db []
    (by intro v hv; simp [qget] at hv)
    (by intro v hv; simp [qget] at hv)
    (by intro v hv; simp [qget] at hv)
    (by intro hv; simp [qget] at hv)
    (by intro hv; simp [qget] at hv)
    (by intro hv; simp [qget] at hv)
  rw [h]
  congr 1
  have hall : (fun r => specMatches ([] : List (String × JVal)) r) = fun _ => true := rfl
  rw [hall, List.filter_true]

theorem claim_C4_witness :
    match_query [JRecord.mk (some (JVal.str "AB12")) (some (JVal.str "JFK"))
        (some (JVal.str "LAX")) (some (JVal.str "2024-01-01 08:00"))
        (some (JVal.str "2024-01-01 14:30")) (some (JVal.num 100))]
      [("origin", JVal.str "JFK"), ("departure_datetime", JVal.str "2024-01-01 00:00"),
        ("arrival_datetime", JVal.str "2024-12-31 23:59"), ("price", JVal.num 500)]
      = Except.ok ([JRecord.mk (some (JVal.str "AB12")) (some (JVal.str "JFK"))
          (some (JVal.str "LAX")) (some (JVal.str "2024-01-01 08:00"))
          (some (JVal.str "2024-01-01 14:30")) (some (JVal.num 100))].filter
        fun r => specMatches [("origin", JVal.str "JFK"),
          ("departure_datetime", JVal.str "2024-01-01 00:00"),
          ("arrival_datetime", JVal.str "2024-12-31 23:59"),
          ("price", JVal.num 500)] r)
    ∧ match_query [JRecord.mk (some (JVal.str "AB12")) (some (JVal.str "JFK"))
        (some (JVal.str "LAX")) (some (JVal.str "2024-01-01 08:00"))
        (some (JVal.str "2024-01-01 14:30")) (some (JVal.num 100))] []
      = Except.ok [JRecord.mk (some (JVal.str "AB12")) (some (JVal.str "JFK"))
          (some (JVal.str "LAX")) (some (JVal.str "2024-01-01 08:00"))
          (some (JVal.str "2024-01-01 14:30")) (some (JVal.num 100))]
    ∧ match_query [JRecord.mk (some (JVal.str "AB12")) (some (JVal.str "JFK"))
        (some (JVal.str "LAX")) (some (JVal.str "2024-01-01 08:00"))
        (some (JVal.str "2024-01-01 14:30")) (some (JVal.num 100))]
      (("note", JVal.str "x") :: [("origin", JVal.str "JFK"),
        ("departure_datetime", JVal.str "2024-01-01 00:00"),
        ("arrival_datetime", JVal.str "2024-12-31 23:59"), ("price", JVal.num 500)])
      = match_query [JRecord.mk (some (JVal.str "AB12")) (some (JVal.str "JFK"))
          (some (JVal.str "LAX")) (some (JVal.str "2024-01-01 08:00"))
          (some (JVal.str "2024-01-01 14:30")) (some (JVal.num 100))]
        [("origin", JVal.str "JFK"), ("departure_datetime", JVal.str "2024-01-01 00:00"),
          ("arrival_datetime", JVal.str "2024-12-31 23:59"), ("price", JVal.num 500)] := by
  have h := claim_C4
    [JRecord.mk (some (JVal.str "AB12")) (some (JVal.str "JFK"))
      (some (JVal.str "LAX")) (some (JVal.str "2024-01-01 08:00"))
      (some (JVal.str "2024-01-01 14:30")) (some (JVal.num 100))]
    [("origin", JVal.str "JFK"), ("departure_datetime", JVal.str "2024-01-01 00:00"),
      ("arrival_datetime", JVal.str "2024-12-31 23:59"), ("price", JVal.num 500)]
    (by
      intro v hv
      cases (show some (JVal.str "2024-01-01 00:00") = some v from hv)
      decide)
    (by
      intro v hv
      cases (show some (JVal.str "2024-12-31 23:59") = some v from hv)
      decide)
    (by
      intro v hv
      cases (show some (JVal.num 500) = some v from hv)
      decide)
    (by
      intro hs r hr
      rw [List.mem_singleton] at hr
      subst hr
      exact ⟨JVal.str "2024-01-01 08:00", ⟨2024, 1, 1, 8, 0⟩, rfl, by decide⟩)
    (by
      intro hs r hr
      rw [List.mem_singleton] at hr
      subst hr
      exact ⟨JVal.str "2024-01-01 14:30", ⟨2024, 1, 1, 14, 30⟩, rfl, by decide⟩)
    (by
      intro hs r hr
      rw [List.mem_singleton] at hr
      subst hr
      decide)
  exact ⟨h.1, h.2.1, h.2.2 "note" (JVal.str "x") (by decide)⟩

/-- C6: Confirmed.  For rows with at least six cells, the ordering reason
is emitted iff both timestamp cells parse and the arrival is before or
equal to the departure; equality is invalid, and when either timestamp
fails to parse the ordering reason never appears. -/
theorem claim_C6 (cells : List String) (h6 : ¬cells.length < 6) :
    "arrival before or equal to departure" ∈ (validate_row cells).2.2 ↔
      ∃ dd ad, parse_datetime (vrField cells 3) = some dd ∧
        parse_datetime (vrField cells 4) = some ad ∧ dtLe ad dd = true := by
  rw [validate_row_errors h6]
  simp [mem_vrErrors, vrDT_eq_parse]

theorem claim_C6_witness :
    "arrival before or equal to departure"
      ∈ (validate_row ["AB12", "JFK", "LAX", "2024-01-01 08:00", "2024-01-01 08:00",
          "10"]).2.2 :=
  (claim_C6 ["AB12", "JFK", "LAX", "2024-01-01 08:00", "2024-01-01 08:00", "10"]
      (by decide)).mpr
    ⟨⟨2024, 1, 1, 8, 0⟩, ⟨2024, 1, 1, 8, 0⟩, by decide, by decide, by decide⟩

/-- C7: Confirmed.  For rows with at least six cells, each blank (after
trimming) field contributes exactly its missing-field reason and never a
format or positivity reason; format and positivity reasons appear exactly
for fields that are non-empty and invalid. -/
theorem claim_C7 (cells : List String) (h6 : ¬cells.length < 6) :
    ("missing flight_id" ∈ (validate_row cells).2.2 ↔ vrField cells 0 = "")
    ∧ ("missing origin field" ∈ (validate_row cells).2.2 ↔ vrField cells 1 = "")
    ∧ ("missing destination field" ∈ (validate_row cells).2.2 ↔ vrField cells 2 = "")
    ∧ ("missing departure_datetime" ∈ (validate_row cells).2.2 ↔ vrField cells 3 = "")
    ∧ ("missing arrival_datetime" ∈ (validate_row cells).2.2 ↔ vrField cells 4 = "")
    ∧ ("missing price" ∈ (validate_row cells).2.2 ↔ vrField cells 5 = "")
    ∧ (("invalid flight_id format" ∈ (validate_row cells).2.2
        ∨ "flight_id length must be 2-8 alphanumeric characters"
            ∈ (validate_row cells).2.2)
      ↔ vrField cells 0 ≠ "" ∧ ¬RE_FLIGHT_ID (vrField cells 0))
    ∧ ("invalid origin code" ∈ (validate_row cells).2.2
      ↔ vrField cells 1 ≠ "" ∧ ¬RE_AIRPORT (vrField cells 1))
    ∧ ("invalid destination code" ∈ (validate_row cells).2.2
      ↔ vrField cells 2 ≠ "" ∧ ¬RE_AIRPORT (vrField cells 2))
    ∧ ("invalid departure datetime" ∈ (validate_row cells).2.2
      ↔ vrField cells 3 ≠ "" ∧ parse_datetime (vrField cells 3) = none)
    ∧ ("invalid arrival datetime" ∈ (validate_row cells).2.2
      ↔ vrField cells 4 ≠ "" ∧ parse_datetime (vrField cells 4) = none)
    ∧ ("invalid price format" ∈ (validate_row cells).2.2
      ↔ vrField cells 5 ≠ "" ∧ pyFloat (vrField cells 5) = none)
    ∧ ("negative or zero price value" ∈ (validate_row cells).2.2
      ↔ vrField cells 5 ≠ "" ∧ ∃ p, pyFloat (vrField cells 5) = some p ∧ p ≤ 0) := by
  rw [validate_row_errors h6]
  refine ⟨?_, ?_, ?_, ?_, ?_, ?_, ?_, ?_, ?_, ?_, ?_, ?_, ?_⟩ <;>
    first
      | (simp [mem_vrErrors, vrDT_eq_parse]
         done)
      | (simp [mem_vrErrors, vrDT_eq_parse]
         constructor
         · rintro (⟨hA, -⟩ | ⟨hA, -⟩) <;> exact hA
         · intro hA
           by_cases hL : (vrField cells 0).length < 2 ∨ 8 < (vrField cells 0).length
           · exact Or.inr ⟨hA, hL⟩
           · exact Or.inl ⟨hA, by omega⟩)

theorem claim_C7_witness :
    ("missing flight_id"
        ∈ (validate_row ["", "jfk", "LAX", "2024-99-99 08:00", "2024-01-01 09:00",
            "-5"]).2.2
      ↔ vrField ["", "jfk", "LAX", "2024-99-99 08:00", "2024-01-01 09:00", "-5"] 0
          = "") :=
  (claim_C7 ["", "jfk", "LAX", "2024-99-99 08:00", "2024-01-01 09:00", "-5"]
    (by decide)).1

/-- C9: Confirmed.  A scanned line whose first non-whitespace character is
`#` contributes no record to the dataset and exactly one diagnostic
carrying the informational comment message, and that message differs from
every diagnostic the record validator can produce. -/
theorem claim_C9 (i : Nat) (raw : String) (rest : List String)
    (h : (pyLstrip (pyRstripNl raw)).data.head? = some '#') :
    scanLines i (raw :: rest)
      = ((scanLines (i + 1) rest).1,
         (i, pyRstripNl raw, commentMsg) :: (scanLines (i + 1) rest).2)
    ∧ ∀ cells, pyJoin ", " ((validate_row cells).2.2) ≠ commentMsg := by
  refine ⟨?_, fun cells => pyJoin_validate_ne_comment cells⟩
  simp only [scanLines]
  rw [processLine_comment i raw h]
  simp

theorem claim_C9_witness :
    scanLines 1 ["# note"] = (([] : List NRecord), [(1, "# note", commentMsg)])
    ∧ pyJoin ", " ((validate_row ["#"]).2.2) ≠ commentMsg := by
  have h := claim_C9 1 "# note" [] (by decide)
  refine ⟨?_, h.2 ["#"]⟩
  rw [h.1]
  rfl
end FlightParser
